import Mathlib

/-!
# Watermark command of `internal/image/processor/watermark.go`

A shallow embedding of `Watermark.Process`, `Watermark.composite`,
`Watermark.label` and `Hex2RGB`, followed by the properties proved about them.

Conventions.
* A Go `string` is a byte sequence.  It is carried as a `List Char`, one
  character per byte; every operation of the source inspects ASCII bytes only
  (`_`, `/`, `+`, `-`, digits, letters), so ASCII text reads as itself.
* Go `int` is the 64-bit signed integer; the values of the source are carried
  as `Int`, and the one place where a bound matters (`strconv`) states it.
* A function returning `(value, error)` is a pair whose second component is
  `none` for a nil error.
* A `float32` or `float64` value is carried as the rational number it equals;
  a conversion or an operation rounds its exact result to the nearest float,
  ties to even.
* Calls into collaborators (background image, loader, overlay handle) are
  recorded, in order, in a list of `Call`s.
-/

set_option linter.unusedVariables false

namespace Processor

/-! ## Data -/

/-- Go `string`. -/
abbrev GoString := List Char

/-- Errors that can reach the caller of `Process`. -/
inductive GoError where
  /-- Value `errors.New("invalid resize params")` -/
  | invalidResizeParams
  /-- Value `strconv.NumError` with `Err = ErrSyntax` -/
  | syntaxError (fn : String) (num : GoString)
  /-- Value `strconv.NumError` with `Err = ErrRange` -/
  | rangeError (fn : String) (num : GoString)
  /-- Error value produced outside this file (decoder, loader, rendering engine). -/
  | external (code : Nat)
  deriving DecidableEq, Repr

/-- Type `vips.ImageMetadata`, the two fields the source reads. -/
structure ImageMetadata where
  Width : Int
  Height : Int
  deriving DecidableEq, Repr

/-- Type `vips.BlendMode`, the two constants the source uses. -/
inductive BlendMode where
  | BlendModeOver
  | BlendModeScreen
  deriving DecidableEq, Repr

/-- Type `vips.Color`; each component is a `uint8`, kept below 256. -/
structure Color where
  R : Nat
  G : Nat
  B : Nat
  deriving DecidableEq, Repr

/-- Type `vips.Align`, the constant the source uses and the zero value. -/
inductive Align where
  | AlignLow
  | AlignCenter
  deriving DecidableEq, Repr

/-- Type `vips.LabelParams`.  Scalars and the opacity are floating point in the
source; each is carried as the rational number the float equals. -/
structure LabelParams where
  Text : GoString
  Font : GoString
  Width : ℚ
  Height : ℚ
  OffsetX : ℚ
  OffsetY : ℚ
  Opacity : ℚ
  Color : Color
  Alignment : Align
  deriving DecidableEq, Repr

/-- Overlay handle `*vips.ImageRef` returned by the loader: an identity and
its current metadata. -/
structure ImageRef where
  id : Nat
  meta : ImageMetadata
  deriving DecidableEq, Repr

/-- Type `metadata.Info`; `Process` never builds one. -/
structure Info where
  deriving DecidableEq, Repr

/-- One call into a collaborator, with its arguments. -/
inductive Call where
  /-- Call `args.Img.Metadata()` -/
  | imgMetadata
  /-- Call `loader.LoadWithUrl(url)` -/
  | loadWithUrl (url : GoString)
  /-- Call `imageRef.Resize(float64(p)/100, vips.KernelAuto)`, recorded by `p` -/
  | resize (ref : ImageRef) (p : Int)
  /-- Call `imageRef.Metadata()` -/
  | refMetadata (ref : ImageRef)
  /-- Call `args.Img.Composite(imageRef, mod, x, y)` -/
  | composite (ref : ImageRef) (mod : BlendMode) (x y : Int)
  /-- Call `imageRef.Close()` -/
  | close (ref : ImageRef)
  /-- Call `args.Img.Label(lp)` -/
  | label (lp : LabelParams)
  deriving DecidableEq, Repr

/-- Background image `args.Img`: what its three methods answer. -/
structure Image where
  Metadata : ImageMetadata
  Composite : ImageRef → BlendMode → Int → Int → Option GoError
  Label : LabelParams → Option GoError

/-- Type `types.CmdArgs`. -/
structure CmdArgs where
  Params : List GoString
  ObjectPrefix : GoString
  Img : Image

/-- Code the source calls that lives outside `watermark.go`: three helpers of
the same package, the loader, and the overlay's `Resize` (which answers the
metadata the handle has afterwards). -/
structure Env where
  base64UrlDecodeString : GoString → GoString × Option GoError
  ensureInRange : Int → Int → Int → Int
  getRealOffset : Int → Int → Int → Int → GoString → ImageMetadata → Int × Int
  LoadWithUrl : GoString → Except GoError ImageRef
  Resize : ImageRef → Int → Except GoError ImageMetadata

/-! ## Standard library -/

/-- Function `strings.Split(s, sep)` for a one-byte separator: the pieces of
`s` between the occurrences of `sep`; one more piece than occurrences. -/
def Split (s : GoString) (sep : Char) : List GoString :=
  match s with
  | [] => [[]]
  | c :: cs =>
    if c = sep then [] :: Split cs sep
    else
      match Split cs sep with
      | [] => [[c]]
      | p :: ps => (c :: p) :: ps

/-- Function `strings.HasPrefix(s, prefix)`. -/
def HasPrefix (s pre : GoString) : Bool :=
  pre.isPrefixOf s

/-- Decimal digit test `'0' <= c && c <= '9'`. -/
def isDigit (c : Char) : Bool :=
  decide (48 ≤ c.toNat) && decide (c.toNat ≤ 57)

/-- Digit value of a byte in `strconv.ParseUint`: `c - '0'` for a decimal
digit, `lower(c) - 'a' + 10` for a letter, where `lower(c) = c | ('x' - 'X')`;
`none` where the source returns a syntax error. -/
def digitVal (c : Char) : Option Nat :=
  if 48 ≤ c.toNat ∧ c.toNat ≤ 57 then some (c.toNat - 48)
  else if 97 ≤ (c.toNat ||| 32) ∧ (c.toNat ||| 32) ≤ 122 then some ((c.toNat ||| 32) - 97 + 10)
  else none

/-- The digit loop of `strconv.ParseUint`, `n` being the `uint64`
accumulator; `s0` is the whole argument, quoted in the error. -/
def parseUintLoop (base cutoff maxVal : Nat) (s0 : GoString) :
    Nat → List Char → Nat × Option GoError
  | n, [] => (n, none)
  | n, c :: cs =>
    match digitVal c with
    | none => (0, some (GoError.syntaxError "ParseUint" s0))
    | some d =>
      if base ≤ d then (0, some (GoError.syntaxError "ParseUint" s0))
      else if cutoff ≤ n then (maxVal, some (GoError.rangeError "ParseUint" s0))
      else
        let n' := (n * base) % 2 ^ 64
        let n1 := (n' + d) % 2 ^ 64
        if n1 < n' ∨ maxVal < n1 then (maxVal, some (GoError.rangeError "ParseUint" s0))
        else parseUintLoop base cutoff maxVal s0 n1 cs

/-- Function `strconv.ParseUint(s, base, bitSize)` for an explicit base
`2 <= base <= 36` and `1 <= bitSize <= 64` (the source calls it with 16, 32). -/
def ParseUint (s : GoString) (base bitSize : Nat) : Nat × Option GoError :=
  if s = [] then (0, some (GoError.syntaxError "ParseUint" s))
  else parseUintLoop base ((2 ^ 64 - 1) / base + 1) (2 ^ bitSize - 1) s 0 s

/-- Test `err != nil && err.(*NumError).Err != ErrRange` of `strconv.ParseInt`. -/
def isNonRangeError : Option GoError → Bool
  | some (GoError.rangeError _ _) => false
  | some _ => true
  | none => false

/-- Function `strconv.ParseInt(s, 10, 0)` on a 64-bit platform: the sign is
picked off, the rest goes through `ParseUint(s, 10, 64)`; a syntax error
answers 0, and a value outside `[-2^63, 2^63 - 1]`, or an overflow met by
`ParseUint`, answers the nearest bound with a range error. -/
def ParseInt (s : GoString) : Int × Option GoError :=
  if s = [] then (0, some (GoError.syntaxError "ParseInt" s))
  else
    let neg : Bool := s.head? = some '-'
    let rest : GoString := if s.head? = some '+' ∨ s.head? = some '-' then s.tail else s
    let r := ParseUint rest 10 64
    if isNonRangeError r.2 then (0, some (GoError.syntaxError "ParseInt" s))
    else if neg = false ∧ 2 ^ 63 ≤ r.1 then
      (2 ^ 63 - 1, some (GoError.rangeError "ParseInt" s))
    else if neg = true ∧ 2 ^ 63 < r.1 then
      (-(2 ^ 63), some (GoError.rangeError "ParseInt" s))
    else (if neg then -(r.1 : Int) else (r.1 : Int), none)

/-- The digit loop of the fast path of `strconv.Atoi`: `none` at the first
byte that is not a decimal digit, else the accumulated value. -/
def atoiLoop : Int → List Char → Option Int
  | n, [] => some n
  | n, ch :: rest =>
    if isDigit ch then atoiLoop (n * 10 + ((ch.toNat : Int) - 48)) rest else none

/-- Assignment `nerr.Func = fnAtoi` of `strconv.Atoi`. -/
def setFuncAtoi : GoError → GoError
  | GoError.syntaxError _ num => GoError.syntaxError "Atoi" num
  | GoError.rangeError _ num => GoError.rangeError "Atoi" num
  | e => e

/-- Function `strconv.Atoi` on a 64-bit platform: the fast path for 1 to 18
bytes, else `ParseInt(s, 10, 0)` with the error renamed. -/
def Atoi (s : GoString) : Int × Option GoError :=
  if 0 < s.length ∧ s.length < 19 then
    let rest : GoString := if s.head? = some '-' ∨ s.head? = some '+' then s.tail else s
    if rest.length < 1 then (0, some (GoError.syntaxError "Atoi" s))
    else
      match atoiLoop 0 rest with
      | none => (0, some (GoError.syntaxError "Atoi" s))
      | some n => (if s.head? = some '-' then -n else n, none)
  else ((ParseInt s).1, (ParseInt s).2.map setFuncAtoi)

/-! ## `watermark.go` -/

/-- Function `Hex2RGB`. -/
def Hex2RGB (hex : GoString) : Color × Option GoError :=
  match ParseUint hex 16 32 with
  | (_, some err) => (⟨0, 0, 0⟩, some err)
  | (values, none) =>
    (⟨(values >>> 16) % 256, ((values >>> 8) &&& 0xFF) % 256, (values &&& 0xFF) % 256⟩, none)

/-- The local variables of `Process` (lines 18-36) together with the named
result `err`; the defaults are the declared initial values. -/
structure Vars where
  x : Int := 0
  y : Int := 0
  g : GoString := "se".toList
  t : Int := 100
  image : GoString := []
  p : Int := 0
  text : GoString := []
  fontType : GoString := []
  fontColor : GoString := []
  fontSize : Int := 0
  fontShadow : Int := 0
  fontRotate : Int := 0
  fill : Int := 0
  err : Option GoError := none
  deriving DecidableEq, Repr

/-- The `switch splits[0]` of the parameter loop (lines 45-74): the variables
after the assignment of the matching case; no case matches an unknown key. -/
def assignParam (env : Env) (v : Vars) (key val : GoString) : Vars :=
  if key = "x".toList then { v with x := (Atoi val).1, err := (Atoi val).2 }
  else if key = "y".toList then { v with y := (Atoi val).1, err := (Atoi val).2 }
  else if key = "g".toList then { v with g := val }
  else if key = "t".toList then { v with t := (Atoi val).1, err := (Atoi val).2 }
  else if key = "image".toList then
    { v with image := (env.base64UrlDecodeString val).1, err := (env.base64UrlDecodeString val).2 }
  else if key = "P".toList then { v with p := (Atoi val).1, err := (Atoi val).2 }
  else if key = "text".toList then
    { v with text := (env.base64UrlDecodeString val).1, err := (env.base64UrlDecodeString val).2 }
  else if key = "type".toList then
    { v with fontType := (env.base64UrlDecodeString val).1,
             err := (env.base64UrlDecodeString val).2 }
  else if key = "color".toList then { v with fontColor := val }
  else if key = "size".toList then { v with fontSize := (Atoi val).1, err := (Atoi val).2 }
  else if key = "shadow".toList then { v with fontShadow := (Atoi val).1, err := (Atoi val).2 }
  else if key = "rotate".toList then { v with fontRotate := (Atoi val).1, err := (Atoi val).2 }
  else if key = "fill".toList then { v with fill := (Atoi val).1, err := (Atoi val).2 }
  else v

/-- The parameter loop of `Process` (lines 38-79).  `Except.error e` is an
early `return` with error `e`; `Except.ok v` is the loop running to its end
with variables `v`. -/
def paramLoop (env : Env) (v : Vars) : List GoString → Except GoError Vars
  | [] => Except.ok v
  | param :: rest =>
    match Split param '_' with
    | [key, val] =>
      match (assignParam env v key val).err with
      | some e => Except.error e
      | none => paramLoop env (assignParam env v key val) rest
    | _ => Except.error GoError.invalidResizeParams

/-- Floor of the binary logarithm of the positive rational `n / d`. -/
def floorLog2 (n d : Nat) : Int :=
  let l : Int := (Nat.log2 n : Int) - (Nat.log2 d : Int)
  if d * 2 ^ l.toNat ≤ n * 2 ^ (-l).toNat then l else l - 1

/-- The binary floating-point number with `prec` bits of mantissa nearest to
`q`, ties to the even mantissa.  The exponent range is not modelled: the
floats of the source are 64-bit integers, their product with 0.75 and their
quotient by 100, all inside the normal range of `float32` and `float64`. -/
def roundToPrec (prec : Nat) (q : ℚ) : ℚ :=
  if q.num = 0 then 0
  else
    let n := q.num.natAbs
    let d := q.den
    let k : Int := floorLog2 n d - ((prec : Int) - 1)
    let N := n * 2 ^ (-k).toNat
    let D := d * 2 ^ k.toNat
    let m := N / D
    let r := N % D
    let m' := if D < 2 * r ∨ (2 * r = D ∧ m % 2 = 1) then m + 1 else m
    mkRat ((if q.num < 0 then -1 else 1) * ((m' * 2 ^ k.toNat : Nat) : Int)) (2 ^ (-k).toNat)

/-- Rounding to `float64`: the conversion `float64(n)` and the result of one
`float64` operation on the exact operands. -/
def float64 (q : ℚ) : ℚ :=
  roundToPrec 53 q

/-- Rounding to `float32`: the conversion `float32(n)` and the result of one
`float32` operation on the exact operands. -/
def float32 (q : ℚ) : ℚ :=
  roundToPrec 24 q

/-- Truncation `int(f)` of a float carried as a rational: toward zero. -/
def truncToInt (q : ℚ) : Int :=
  Int.tdiv q.num q.den

/-- Method `Watermark.composite` (lines 106-141): the error returned and the
collaborator calls made.  The deferred `Close` runs after `Composite`. -/
def composite (env : Env) (args : CmdArgs) (bgInfo : ImageMetadata)
    (image : GoString) (p x y : Int) (g : GoString) (t : Int) :
    Option GoError × List Call :=
  let image := if HasPrefix image "/".toList then image else "/".toList ++ image
  let url := args.ObjectPrefix ++ image
  match env.LoadWithUrl url with
  | Except.error err => (some err, [Call.loadWithUrl url])
  | Except.ok loaded =>
    let draw (imageRef : ImageRef) (pre : List Call) : Option GoError × List Call :=
      let xy := env.getRealOffset bgInfo.Width bgInfo.Height x y g imageRef.meta
      let mod := if t < 80 ∧ t > 50 then BlendMode.BlendModeScreen else BlendMode.BlendModeOver
      (args.Img.Composite imageRef mod xy.1 xy.2,
        pre ++ [Call.refMetadata imageRef, Call.composite imageRef mod xy.1 xy.2,
                Call.close imageRef])
    if p > 0 then
      match env.Resize loaded p with
      | Except.error err => (some err, [Call.loadWithUrl url, Call.resize loaded p])
      | Except.ok m =>
        draw { loaded with meta := m } [Call.loadWithUrl url, Call.resize loaded p]
    else draw loaded [Call.loadWithUrl url]

/-- Method `Watermark.label` (lines 143-185): the error returned and the
collaborator calls made. -/
def label (env : Env) (args : CmdArgs) (bgInfo : ImageMetadata)
    (text fontType fontColor : GoString) (fontSize fontShadow fontRotate fill : Int)
    (x y : Int) (g : GoString) (t : Int) : Option GoError × List Call :=
  let lp : LabelParams :=
    { Text := text, Font := "OPPOSans R".toList, Width := 200,
      Height := float64 (float64 (fontSize : ℚ) * (3 / 4)), OffsetX := 0, OffsetY := 0,
      Opacity := 0, Color := ⟨0, 0, 0⟩, Alignment := Align.AlignCenter }
  let finish (lp : LabelParams) : Option GoError × List Call :=
    let xy := env.getRealOffset bgInfo.Width bgInfo.Height x y g
      ⟨truncToInt lp.Width, truncToInt lp.Height⟩
    let lp := { lp with OffsetX := float64 (xy.1 : ℚ), OffsetY := float64 (xy.2 : ℚ) }
    let lp := if t > 0 then { lp with Opacity := float32 (float32 (t : ℚ) / 100) } else lp
    (args.Img.Label lp, [Call.label lp])
  if fontColor ≠ [] then
    match Hex2RGB fontColor with
    | (_, some err) => (some err, [])
    | (c, none) => finish { lp with Color := c }
  else finish lp

/-- Result of `Process`: the two return values and the collaborator calls
made, in order. -/
structure Outcome where
  info : Option Info
  err : Option GoError
  calls : List Call
  deriving DecidableEq, Repr

/-- Method `Watermark.Process` (lines 17-104). -/
def Process (env : Env) (args : CmdArgs) : Outcome :=
  match paramLoop env {} args.Params with
  | Except.error e => ⟨none, some e, []⟩
  | Except.ok v =>
    if v.image = [] ∧ v.text = [] then ⟨none, v.err, []⟩
    else
      let metadata := args.Img.Metadata
      let x := env.ensureInRange 0 metadata.Width v.x
      let y := env.ensureInRange 0 metadata.Height v.y
      if v.image ≠ [] then
        let r := composite env args metadata v.image v.p x y v.g v.t
        ⟨none, r.1, Call.imgMetadata :: r.2⟩
      else if v.text ≠ [] then
        let r := label env args metadata v.text v.fontType v.fontColor v.fontSize
          v.fontShadow v.fontRotate v.fill x y v.g v.t
        ⟨none, r.1, Call.imgMetadata :: r.2⟩
      else ⟨none, v.err, [Call.imgMetadata]⟩

/-! ## Vocabulary of the specification

Definitions that follow the words of the specification, to be compared with
the embedding above. -/

/-- The thirteen recognized keys of the token grammar (spec §4.1). -/
inductive Key where
  | x | y | g | t | image | P | text | type | color | size | shadow | rotate | fill
  deriving DecidableEq, Repr

/-- Every recognized key, in the order of the table of spec §4.1. -/
def Key.all : List Key :=
  [Key.x, Key.y, Key.g, Key.t, Key.image, Key.P, Key.text, Key.type, Key.color,
   Key.size, Key.shadow, Key.rotate, Key.fill]

/-- Spelling of a key inside a token. -/
def Key.name : Key → GoString
  | Key.x => "x".toList
  | Key.y => "y".toList
  | Key.g => "g".toList
  | Key.t => "t".toList
  | Key.image => "image".toList
  | Key.P => "P".toList
  | Key.text => "text".toList
  | Key.type => "type".toList
  | Key.color => "color".toList
  | Key.size => "size".toList
  | Key.shadow => "shadow".toList
  | Key.rotate => "rotate".toList
  | Key.fill => "fill".toList

/-- Column "decode" of the table of spec §4.1. -/
inductive Decode where
  | decimal
  | verbatim
  | base64url
  deriving DecidableEq, Repr

/-- How the value of each key is decoded (spec §4.1). -/
def Key.decode : Key → Decode
  | Key.g => Decode.verbatim
  | Key.color => Decode.verbatim
  | Key.image => Decode.base64url
  | Key.text => Decode.base64url
  | Key.type => Decode.base64url
  | _ => Decode.decimal

/-- A decoded field value: an integer or a string. -/
inductive FieldValue where
  | int (n : Int)
  | str (s : GoString)
  deriving DecidableEq, Repr

/-- The key named by a string, if it is a recognized one (case-sensitive). -/
def Key.ofName (name : GoString) : Option Key :=
  Key.all.find? (fun k => decide (k.name = name))

/-- Token Decoder of spec §4.1: the key and the decoded value of a token that
splits into exactly two parts, has a recognized key and a value that decodes
without error; `none` for every other token. -/
def decodeToken (env : Env) (tok : GoString) : Option (Key × FieldValue) :=
  match Split tok '_' with
  | [name, val] =>
    match Key.ofName name with
    | none => none
    | some k =>
      match k.decode with
      | Decode.decimal =>
        if (Atoi val).2 = none then some (k, FieldValue.int (Atoi val).1) else none
      | Decode.verbatim => some (k, FieldValue.str val)
      | Decode.base64url =>
        if (env.base64UrlDecodeString val).2 = none then
          some (k, FieldValue.str (env.base64UrlDecodeString val).1)
        else none
  | _ => none

/-- Decoded value of the last token of the list that carries key `k`. -/
def lastValue (env : Env) (k : Key) : List GoString → Option FieldValue
  | [] => none
  | tok :: rest =>
    match lastValue env k rest with
    | some val => some val
    | none =>
      match decodeToken env tok with
      | some (k', val) => if k' = k then some val else none
      | none => none

/-- Default of each field: x = 0, y = 0, g = "se", t = 100, every other field
zero or empty. -/
def defaultValue : Key → FieldValue
  | Key.g => FieldValue.str "se".toList
  | Key.t => FieldValue.int 100
  | Key.image => FieldValue.str []
  | Key.text => FieldValue.str []
  | Key.type => FieldValue.str []
  | Key.color => FieldValue.str []
  | _ => FieldValue.int 0

/-- The accumulated field of each key: the local variable of `Process` that
the key's case assigns. -/
def Vars.field (v : Vars) : Key → FieldValue
  | Key.x => FieldValue.int v.x
  | Key.y => FieldValue.int v.y
  | Key.g => FieldValue.str v.g
  | Key.t => FieldValue.int v.t
  | Key.image => FieldValue.str v.image
  | Key.P => FieldValue.int v.p
  | Key.text => FieldValue.str v.text
  | Key.type => FieldValue.str v.fontType
  | Key.color => FieldValue.str v.fontColor
  | Key.size => FieldValue.int v.fontSize
  | Key.shadow => FieldValue.int v.fontShadow
  | Key.rotate => FieldValue.int v.fontRotate
  | Key.fill => FieldValue.int v.fill

/-- A decimal integer numeral: an optional sign, then one or more digits. -/
def isDecimalInteger (s : GoString) : Bool :=
  match s with
  | [] => false
  | c :: r =>
    if c = '-' ∨ c = '+' then !r.isEmpty && r.all isDigit
    else (c :: r).all isDigit

/-- The keys whose value is an integer. -/
def numericKeys : List GoString :=
  ["x".toList, "y".toList, "t".toList, "P".toList, "size".toList, "shadow".toList,
   "rotate".toList, "fill".toList]

/-- A hexadecimal digit: 0-9, a-f, A-F. -/
def isHexDigit (c : Char) : Bool :=
  (decide (48 ≤ c.toNat) && decide (c.toNat ≤ 57)) ||
  (decide (97 ≤ c.toNat) && decide (c.toNat ≤ 102)) ||
  (decide (65 ≤ c.toNat) && decide (c.toNat ≤ 70))

/-- Value of one hexadecimal digit. -/
def hexDigitValue (c : Char) : Nat :=
  if c.toNat ≤ 57 then c.toNat - 48
  else if c.toNat ≤ 70 then c.toNat - 55
  else c.toNat - 87

/-- Base-16 value of a string of hexadecimal digits, most significant first. -/
def hexValue (s : GoString) : Nat :=
  s.foldl (fun n c => n * 16 + hexDigitValue c) 0

/-- A base-16 unsigned integer numeral: one or more hexadecimal digits. -/
def isHexNumeral (s : GoString) : Bool :=
  !s.isEmpty && s.all isHexDigit

/-- The alphabet of URL-safe base64 (RFC 4648 §5). -/
def base64UrlAlphabet : List Char :=
  "ABCDEFGHIJKLMNOPQRSTUVWXYZabcdefghijklmnopqrstuvwxyz0123456789-_".toList

/-- The character of a 6-bit group. -/
def base64UrlChar (n : Nat) : Char :=
  base64UrlAlphabet.getD n 'A'

/-- URL-safe base64 encoding (RFC 4648 §5, padded) of a byte string. -/
def base64UrlEncode : GoString → GoString
  | [] => []
  | [a] =>
    [base64UrlChar (a.toNat / 4), base64UrlChar (a.toNat % 4 * 16), '=', '=']
  | [a, b] =>
    [base64UrlChar (a.toNat / 4), base64UrlChar (a.toNat % 4 * 16 + b.toNat / 16),
     base64UrlChar (b.toNat % 16 * 4), '=']
  | a :: b :: c :: rest =>
    base64UrlChar (a.toNat / 4) :: base64UrlChar (a.toNat % 4 * 16 + b.toNat / 16) ::
      base64UrlChar (b.toNat % 16 * 4 + c.toNat / 64) :: base64UrlChar (c.toNat % 64) ::
      base64UrlEncode rest

/-! ## Helpers outside `watermark.go` -/

/-- Modelled from the spec: part of `base64UrlDecodeString` below, the 6-bit
group of a character of the URL-safe alphabet. -/
def base64UrlIndex (c : Char) : Option Nat :=
  if base64UrlAlphabet.indexOf c < 64 then some (base64UrlAlphabet.indexOf c) else none

/-- Modelled from the spec: part of `base64UrlDecodeString` below, URL-safe
base64 decoding of padded text, `none` for text that is not an encoding. -/
def base64UrlDecode : GoString → Option GoString
  | [] => some []
  | a :: b :: c :: d :: rest =>
    match base64UrlIndex a, base64UrlIndex b with
    | some i, some j =>
      if rest = [] ∧ c = '=' ∧ d = '=' then some [Char.ofNat (i * 4 + j / 16)]
      else
        match base64UrlIndex c with
        | none => none
        | some k =>
          if rest = [] ∧ d = '=' then
            some [Char.ofNat (i * 4 + j / 16), Char.ofNat (j % 16 * 16 + k / 4)]
          else
            match base64UrlIndex d, base64UrlDecode rest with
            | some l, some tail =>
              some (Char.ofNat (i * 4 + j / 16) :: Char.ofNat (j % 16 * 16 + k / 4) ::
                Char.ofNat (k % 4 * 64 + l) :: tail)
            | _, _ => none
    | _, _ => none
  | _ => none

/-- Modelled from the spec: helper `base64UrlDecodeString` of the package,
whose file is not part of the sources read here; spec §4.1 describes it as
"URL-safe base64 decode".  A decoding failure answers the empty string and an
error. -/
def base64UrlDecodeString (s : GoString) : GoString × Option GoError :=
  match base64UrlDecode s with
  | some out => (out, none)
  | none => ([], some (GoError.external 1))

/-- Modelled from the spec: helper `ensureInRange` of the package, whose file
is not part of the sources read here; spec §4.3 step 1 describes a "simple
range clamp" of the value to `[lo, hi]`. -/
def ensureInRange (lo hi v : Int) : Int :=
  if v < lo then lo else if hi < v then hi else v

/-- Modelled from the spec: helper `getRealOffset` of the package, whose file
is not part of the sources read here; spec §4.3 steps 2-3.  An anchor on the
east or south edge is moved inward by the overlay's size and the offset is
subtracted; an anchor on the west or north edge adds the offset; a midpoint
is half the background's size plus the offset; an unrecognized code is
south-east. -/
def getRealOffset (bgWidth bgHeight x y : Int) (g : GoString) (info : ImageMetadata) :
    Int × Int :=
  let west := x
  let east := bgWidth - info.Width - x
  let midX := Int.tdiv bgWidth 2 + x
  let north := y
  let south := bgHeight - info.Height - y
  let midY := Int.tdiv bgHeight 2 + y
  if g = "nw".toList then (west, north)
  else if g = "n".toList then (midX, north)
  else if g = "ne".toList then (east, north)
  else if g = "w".toList then (west, midY)
  else if g = "center".toList then (midX, midY)
  else if g = "e".toList then (east, midY)
  else if g = "sw".toList then (west, south)
  else if g = "s".toList then (midX, south)
  else (east, south)

/-- An environment to run the code in: the helpers as the specification
describes them, a loader that answers a 100 x 40 overlay for every path, and
a `Resize` that scales both sides by `p` percent. -/
def sampleEnv : Env where
  base64UrlDecodeString := base64UrlDecodeString
  ensureInRange := ensureInRange
  getRealOffset := getRealOffset
  LoadWithUrl := fun _ => Except.ok ⟨1, ⟨100, 40⟩⟩
  Resize := fun ref p =>
    Except.ok ⟨Int.tdiv (ref.meta.Width * p) 100, Int.tdiv (ref.meta.Height * p) 100⟩

/-- A 500 x 500 background whose rendering calls succeed. -/
def sampleImg : Image where
  Metadata := ⟨500, 500⟩
  Composite := fun _ _ _ _ => none
  Label := fun _ => none

/-- A request on `sampleImg` with object prefix "bucket". -/
def sampleArgs (params : List String) : CmdArgs where
  Params := params.map String.toList
  ObjectPrefix := "bucket".toList
  Img := sampleImg

/-- Path normalization of spec §4.6 step 4, "normalize the path to begin with
a path separator": the path itself when it begins with "/", else "/" followed
by the path. -/
def normalizePath (p : GoString) : GoString :=
  if p.head? = some '/' then p else '/' :: p

/-- Test for a call of the loader. -/
def Call.isLoad : Call → Bool
  | Call.loadWithUrl _ => true
  | _ => false

/-- Test for a call of `Resize`. -/
def Call.isResize : Call → Bool
  | Call.resize _ _ => true
  | _ => false

/-- Test for a call of `Composite`. -/
def Call.isComposite : Call → Bool
  | Call.composite _ _ _ _ => true
  | _ => false

/-- Test for a call of `Close`. -/
def Call.isClose : Call → Bool
  | Call.close _ => true
  | _ => false

/-- An environment like `sampleEnv` whose `Resize` fails. -/
def resizeFailsEnv : Env :=
  { sampleEnv with Resize := fun _ _ => Except.error (GoError.external 2) }

/-- The keys whose variables `label` receives and never reads. -/
def unusedKeys : List GoString :=
  ["shadow".toList, "rotate".toList, "fill".toList]

/-- Two tokens that are equal, or that carry the same key among shadow, rotate
and fill with two values that `Atoi` accepts. -/
def SameButUnused (tok tok' : GoString) : Prop :=
  tok = tok' ∨
    ∃ key ∈ unusedKeys, ∃ val val' : GoString,
      tok = key ++ '_' :: val ∧ tok' = key ++ '_' :: val' ∧
      (Atoi val).2 = none ∧ (Atoi val').2 = none

/-- The variables with `fontShadow`, `fontRotate` and `fill` set to zero. -/
def Vars.rendered (v : Vars) : Vars :=
  { v with fontShadow := 0, fontRotate := 0, fill := 0 }

/-- Two runs of the loop end alike: with the same error, or with variables
that agree outside `fontShadow`, `fontRotate` and `fill`. -/
def LoopsAgree : Except GoError Vars → Except GoError Vars → Prop
  | Except.ok w, Except.ok w' => w.rendered = w'.rendered
  | Except.error e, Except.error e' => e = e'
  | _, _ => False

/-- A token on which the loop body returns early whatever the variables. -/
def Aborts (env : Env) (tok : GoString) : Prop :=
  ∀ v : Vars, ∃ e, paramLoop env v [tok] = Except.error e

/-! ## The parameter loop -/

theorem Split_ne_nil (s : GoString) (sep : Char) : Split s sep ≠ [] := by
  induction s with
  | nil => simp [Split]
  | cons c cs ih =>
    unfold Split
    split
    · simp
    · split <;> simp

theorem Split_singleton (sep : Char) :
    ∀ (s p : GoString), Split s sep = [p] → p = s ∧ sep ∉ s := by
  intro s
  induction s with
  | nil => intro p h; simp [Split] at h; simp [h]
  | cons c cs ih =>
    intro p h
    unfold Split at h
    split at h
    · exact absurd h (by simp [Split_ne_nil])
    · rename_i hc
      split at h
      · rename_i hnil; exact absurd hnil (Split_ne_nil cs sep)
      · rename_i q qs hq
        simp only [List.cons.injEq] at h
        obtain ⟨h1, h2⟩ := h
        subst h2
        obtain ⟨e1, e2⟩ := ih q hq
        subst e1
        refine ⟨h1.symm, ?_⟩
        simp only [List.mem_cons, not_or]
        exact ⟨fun e => hc e.symm, e2⟩

theorem Split_append_sep (sep : Char) (val : GoString) :
    ∀ key : GoString, sep ∉ key → Split (key ++ sep :: val) sep = key :: Split val sep := by
  intro key
  induction key with
  | nil => intro _; simp [Split]
  | cons c cs ih =>
    intro h
    simp only [List.mem_cons, not_or] at h
    have hc : c ≠ sep := fun e => h.1 e.symm
    simp only [List.cons_append]
    rw [Split, if_neg hc, ih h.2]

theorem paramLoop_append (env : Env) (l2 : List GoString) :
    ∀ (l1 : List GoString) (v : Vars),
      paramLoop env v (l1 ++ l2) =
        match paramLoop env v l1 with
        | Except.error e => Except.error e
        | Except.ok v' => paramLoop env v' l2 := by
  intro l1
  induction l1 with
  | nil => intro v; simp [paramLoop]
  | cons tok rest ih =>
    intro v
    simp only [List.cons_append, paramLoop]
    split
    · split
      · rfl
      · exact ih _
    · rfl

theorem paramLoop_err_none (env : Env) :
    ∀ (l : List GoString) (v v' : Vars),
      v.err = none → paramLoop env v l = Except.ok v' → v'.err = none := by
  intro l
  induction l with
  | nil => intro v v' hv h; simp only [paramLoop, Except.ok.injEq] at h; rw [← h]; exact hv
  | cons tok rest ih =>
    intro v v' _ h
    simp only [paramLoop] at h
    split at h
    · split at h
      · exact absurd h (by simp)
      · rename_i hnone; exact ih _ _ hnone h
    · exact absurd h (by simp)

theorem paramLoop_aborts (env : Env) (tok : GoString) (hab : Aborts env tok)
    (l : List GoString) (hmem : tok ∈ l) (v : Vars) :
    ∃ e, paramLoop env v l = Except.error e := by
  obtain ⟨l1, l2, rfl⟩ := List.append_of_mem hmem
  rw [paramLoop_append]
  cases h1 : paramLoop env v l1 with
  | error e => exact ⟨e, rfl⟩
  | ok v' =>
    have h2 := paramLoop_append env l2 [tok] v'
    simp only [List.singleton_append] at h2
    obtain ⟨e, he⟩ := hab v'
    rw [he] at h2
    exact ⟨e, h2⟩

theorem Process_of_loop_error (env : Env) (args : CmdArgs) (e : GoError)
    (h : paramLoop env {} args.Params = Except.error e) :
    Process env args = ⟨none, some e, []⟩ := by
  simp only [Process, h]

theorem aborts_of_split (env : Env) (tok : GoString) (h : (Split tok '_').length ≠ 2) :
    Aborts env tok := by
  intro v
  refine ⟨GoError.invalidResizeParams, ?_⟩
  simp only [paramLoop]
  split
  · rename_i heq; rw [heq] at h; simp at h
  · rfl

theorem atoiLoop_none (cs : List Char) (h : cs.all isDigit = false) :
    ∀ n : Int, atoiLoop n cs = none := by
  induction cs with
  | nil => simp at h
  | cons c cs ih =>
    intro n
    unfold atoiLoop
    cases hc : isDigit c with
    | false => simp
    | true =>
      have hrest : cs.all isDigit = false := by simpa [List.all_cons, hc] using h
      simpa using ih hrest _

theorem digitVal_not_digit (c : Char) (h : isDigit c = false) (d : Nat)
    (hd : digitVal c = some d) : 10 ≤ d := by
  unfold isDigit at h
  simp only [Bool.and_eq_false_iff, decide_eq_false_iff_not] at h
  unfold digitVal at hd
  rw [if_neg (by omega)] at hd
  split at hd
  · simp only [Option.some.injEq] at hd
    omega
  · exact absurd hd (by simp)

theorem parseUintLoop_nondigit (cutoff maxVal : Nat) (s0 : GoString) (cs : List Char)
    (hall : cs.all isDigit = false) :
    ∀ n : Nat, (parseUintLoop 10 cutoff maxVal s0 n cs).2 ≠ none ∧
      (isNonRangeError (parseUintLoop 10 cutoff maxVal s0 n cs).2 = false →
        (parseUintLoop 10 cutoff maxVal s0 n cs).1 = maxVal) := by
  induction cs with
  | nil => simp at hall
  | cons c cs ih =>
    intro n
    unfold parseUintLoop
    cases hd : digitVal c with
    | none => simp [isNonRangeError]
    | some d =>
      simp only
      split
      · simp [isNonRangeError]
      · rename_i hlt
        have hc : isDigit c = true := by
          cases hx : isDigit c with
          | true => rfl
          | false => exact absurd (digitVal_not_digit c hx d hd) hlt
        have hrest : cs.all isDigit = false := by
          simpa [List.all_cons, hc] using hall
        split
        · simp [isNonRangeError]
        · split
          · simp [isNonRangeError]
          · exact ih hrest _

theorem ParseInt_err_of_rest (c : Char) (r : List Char)
    (h : (if c = '-' ∨ c = '+' then r else c :: r) = [] ∨
      (if c = '-' ∨ c = '+' then r else c :: r).all isDigit = false) :
    (ParseInt (c :: r)).2 ≠ none := by
  have hrest : (if (c :: r).head? = some '+' ∨ (c :: r).head? = some '-' then (c :: r).tail
      else c :: r) = (if c = '-' ∨ c = '+' then r else c :: r) := by
    simp only [List.head?_cons, Option.some.injEq, List.tail_cons, or_comm]
  unfold ParseInt
  rw [if_neg (by simp)]
  simp only [hrest]
  generalize (if c = '-' ∨ c = '+' then r else c :: r) = rest at h
  have hu : (ParseUint rest 10 64).2 ≠ none ∧
      (isNonRangeError (ParseUint rest 10 64).2 = false →
        (ParseUint rest 10 64).1 = 2 ^ 64 - 1) := by
    unfold ParseUint
    by_cases hemp : rest = []
    · simp [hemp, isNonRangeError]
    · rw [if_neg hemp]
      exact parseUintLoop_nondigit _ _ rest rest (h.resolve_left hemp) 0
  cases hn : isNonRangeError (ParseUint rest 10 64).2 with
  | true => simp
  | false =>
    have hv := hu.2 hn
    simp only [Bool.false_eq_true, if_false, hv]
    cases hneg : decide ((c :: r).head? = some '-') with
    | false => simp
    | true => simp

theorem Atoi_err_of_not_decimal (s : GoString) (h : isDecimalInteger s = false) :
    (Atoi s).2 ≠ none := by
  cases s with
  | nil => simp [Atoi, ParseInt]
  | cons c r =>
    have hrest : (if c = '-' ∨ c = '+' then r else c :: r) = [] ∨
        (if c = '-' ∨ c = '+' then r else c :: r).all isDigit = false := by
      by_cases hc : c = '-' ∨ c = '+'
      · simp only [isDecimalInteger, if_pos hc, Bool.and_eq_false_iff,
          Bool.not_eq_false_eq_eq_true, List.isEmpty_iff] at h
        simpa only [if_pos hc] using h
      · simp only [isDecimalInteger, if_neg hc] at h
        simp only [if_neg hc]
        exact Or.inr h
    unfold Atoi
    split
    · have he : (if (c :: r).head? = some '-' ∨ (c :: r).head? = some '+' then (c :: r).tail
          else c :: r) = (if c = '-' ∨ c = '+' then r else c :: r) := by
        simp only [List.head?_cons, Option.some.injEq, List.tail_cons]
      simp only [he]
      generalize (if c = '-' ∨ c = '+' then r else c :: r) = rest at hrest
      split
      · simp
      · rename_i hlen
        have hne : rest ≠ [] := by
          intro e; rw [e] at hlen; simp at hlen
        rw [atoiLoop_none rest (hrest.resolve_left hne) 0]
        simp
    · have := ParseInt_err_of_rest c r hrest
      cases hp : (ParseInt (c :: r)).2 with
      | none => exact absurd hp this
      | some e => simp

theorem assignParam_numeric_err (env : Env) (v : Vars) (key val : GoString)
    (hkey : key ∈ numericKeys) : (assignParam env v key val).err = (Atoi val).2 := by
  simp only [numericKeys, List.mem_cons, List.mem_singleton, List.not_mem_nil, or_false] at hkey
  rcases hkey with rfl | rfl | rfl | rfl | rfl | rfl | rfl | rfl <;> simp [assignParam]

theorem aborts_of_atoi_error (env : Env) (key val : GoString) (hkey : key ∈ numericKeys)
    (hval : (Atoi val).2 ≠ none) : Aborts env (key ++ '_' :: val) := by
  have hsep : '_' ∉ key := by
    simp only [numericKeys, List.mem_cons, List.mem_singleton, List.not_mem_nil, or_false] at hkey
    rcases hkey with rfl | rfl | rfl | rfl | rfl | rfl | rfl | rfl <;> decide
  have hs := Split_append_sep '_' val key hsep
  by_cases hlen : (Split val '_').length = 1
  · obtain ⟨p, hp⟩ := List.length_eq_one.mp hlen
    obtain ⟨rfl, _⟩ := Split_singleton '_' val p hp
    intro v
    have herr := assignParam_numeric_err env v key p hkey
    rw [hp] at hs
    cases h : (assignParam env v key p).err with
    | none => rw [herr] at h; exact absurd h hval
    | some e =>
      refine ⟨e, ?_⟩
      simp only [paramLoop, hs, h]
  · apply aborts_of_split
    rw [hs]
    simp only [List.length_cons, ne_eq]
    omega

theorem aborts_of_numeric (env : Env) (key val : GoString) (hkey : key ∈ numericKeys)
    (hval : isDecimalInteger val = false) : Aborts env (key ++ '_' :: val) :=
  aborts_of_atoi_error env key val hkey (Atoi_err_of_not_decimal val hval)

theorem assignParam_unknown (env : Env) (v : Vars) (key val : GoString)
    (hkey : Key.ofName key = none) : assignParam env v key val = v := by
  simp only [Key.ofName, Key.all, List.find?_eq_none, List.mem_cons, List.mem_singleton,
    List.not_mem_nil, or_false, decide_eq_true_eq, forall_eq_or_imp, forall_eq, Key.name] at hkey
  obtain ⟨h1, h2, h3, h4, h5, h6, h7, h8, h9, h10, h11, h12, h13⟩ := hkey
  simp only [assignParam, if_neg (Ne.symm h1), if_neg (Ne.symm h2), if_neg (Ne.symm h3),
    if_neg (Ne.symm h4), if_neg (Ne.symm h5), if_neg (Ne.symm h6), if_neg (Ne.symm h7),
    if_neg (Ne.symm h8), if_neg (Ne.symm h9), if_neg (Ne.symm h10), if_neg (Ne.symm h11),
    if_neg (Ne.symm h12), if_neg (Ne.symm h13)]

theorem paramLoop_skip_unknown (env : Env) (u key val : GoString)
    (hsplit : Split u '_' = [key, val]) (hkey : Key.ofName key = none)
    (l1 l2 : List GoString) :
    paramLoop env {} (l1 ++ u :: l2) = paramLoop env {} (l1 ++ l2) := by
  rw [paramLoop_append, paramLoop_append]
  cases h1 : paramLoop env {} l1 with
  | error e => rfl
  | ok v' =>
    have herr : v'.err = none := paramLoop_err_none env l1 {} v' rfl h1
    simp only [paramLoop, hsplit, assignParam_unknown env v' key val hkey, herr]

/-! ## The two branches -/

theorem composite_calls_head (env : Env) (args : CmdArgs) (bgInfo : ImageMetadata)
    (image : GoString) (p x y : Int) (g : GoString) (t : Int) :
    ∃ rest, (composite env args bgInfo image p x y g t).2 =
      Call.loadWithUrl (args.ObjectPrefix ++
        (if HasPrefix image "/".toList then image else "/".toList ++ image)) :: rest := by
  unfold composite
  simp only
  split
  · exact ⟨_, rfl⟩
  · split
    · split
      · exact ⟨_, rfl⟩
      · exact ⟨_, rfl⟩
    · exact ⟨_, rfl⟩

theorem composite_no_label (env : Env) (args : CmdArgs) (bgInfo : ImageMetadata)
    (image : GoString) (p x y : Int) (g : GoString) (t : Int) (lp : LabelParams) :
    Call.label lp ∉ (composite env args bgInfo image p x y g t).2 := by
  unfold composite
  simp only
  split
  · simp
  · split
    · split
      · simp
      · simp
    · simp

theorem Process_noop (env : Env) (args : CmdArgs) (v : Vars)
    (hloop : paramLoop env {} args.Params = Except.ok v)
    (himage : v.image = []) (htext : v.text = []) :
    Process env args = ⟨none, none, []⟩ := by
  have herr := paramLoop_err_none env _ {} v rfl hloop
  simp only [Process, hloop, himage, htext, herr, and_self, if_true]

theorem Process_image (env : Env) (args : CmdArgs) (v : Vars)
    (hloop : paramLoop env {} args.Params = Except.ok v) (himage : v.image ≠ []) :
    Process env args =
      ⟨none,
        (composite env args args.Img.Metadata v.image v.p
          (env.ensureInRange 0 args.Img.Metadata.Width v.x)
          (env.ensureInRange 0 args.Img.Metadata.Height v.y) v.g v.t).1,
        Call.imgMetadata ::
          (composite env args args.Img.Metadata v.image v.p
            (env.ensureInRange 0 args.Img.Metadata.Width v.x)
            (env.ensureInRange 0 args.Img.Metadata.Height v.y) v.g v.t).2⟩ := by
  simp only [Process, hloop, himage, false_and, if_false, ne_eq, not_false_eq_true, if_true]

theorem Process_text (env : Env) (args : CmdArgs) (v : Vars)
    (hloop : paramLoop env {} args.Params = Except.ok v)
    (himage : v.image = []) (htext : v.text ≠ []) :
    Process env args =
      ⟨none,
        (label env args args.Img.Metadata v.text v.fontType v.fontColor v.fontSize
          v.fontShadow v.fontRotate v.fill
          (env.ensureInRange 0 args.Img.Metadata.Width v.x)
          (env.ensureInRange 0 args.Img.Metadata.Height v.y) v.g v.t).1,
        Call.imgMetadata ::
          (label env args args.Img.Metadata v.text v.fontType v.fontColor v.fontSize
            v.fontShadow v.fontRotate v.fill
            (env.ensureInRange 0 args.Img.Metadata.Width v.x)
            (env.ensureInRange 0 args.Img.Metadata.Height v.y) v.g v.t).2⟩ := by
  simp only [Process, hloop, himage, htext, and_false, if_false, ne_eq, not_true_eq_false,
    not_false_eq_true, if_true]

theorem label_only_label (env : Env) (args : CmdArgs) (bgInfo : ImageMetadata)
    (text fontType fontColor : GoString) (fontSize fontShadow fontRotate fill : Int)
    (x y : Int) (g : GoString) (t : Int) (c : Call)
    (h : c ∈ (label env args bgInfo text fontType fontColor fontSize fontShadow fontRotate
      fill x y g t).2) : ∃ lp, c = Call.label lp := by
  unfold label at h
  simp only at h
  split at h
  · split at h
    · simp at h
    · simp only [List.mem_singleton] at h; exact ⟨_, h⟩
  · simp only [List.mem_singleton] at h; exact ⟨_, h⟩

/-! ## Last token wins -/

theorem Key.ofName_some (name : GoString) (k : Key) (h : Key.ofName name = some k) :
    k.name = name := by
  have := List.find?_some h
  simpa using this

theorem assignParam_decoded (env : Env) (tok : GoString) (k : Key) (val : FieldValue)
    (h : decodeToken env tok = some (k, val)) (v : Vars) (hv : v.err = none) :
    ∃ raw, Split tok '_' = [k.name, raw] ∧ (assignParam env v k.name raw).err = none ∧
      (assignParam env v k.name raw).field k = val ∧
      ∀ k', k' ≠ k → (assignParam env v k.name raw).field k' = v.field k' := by
  unfold decodeToken at h
  split at h
  · rename_i name raw hs
    cases hk : Key.ofName name with
    | none => simp [hk] at h
    | some k' =>
      have hname := Key.ofName_some name k' hk
      have hkk : k' = k := by
        simp only [hk] at h
        split at h
        · split at h
          · simp only [Option.some.injEq, Prod.mk.injEq] at h; exact h.1
          · exact absurd h (by simp)
        · simp only [Option.some.injEq, Prod.mk.injEq] at h; exact h.1
        · split at h
          · simp only [Option.some.injEq, Prod.mk.injEq] at h; exact h.1
          · exact absurd h (by simp)
      subst hkk
      subst hname
      refine ⟨raw, hs, ?_⟩
      simp only [hk] at h
      cases k' <;> simp [Key.decode] at h <;>
        first
        | (subst h
           refine ⟨by simp [assignParam, Key.name, hv], by simp [assignParam, Key.name, Vars.field],
             fun k' hk' => ?_⟩
           cases k' <;> simp [assignParam, Key.name, Vars.field] at hk' ⊢)
        | (obtain ⟨h1, rfl⟩ := h
           refine ⟨by simp [assignParam, Key.name, h1], by simp [assignParam, Key.name, Vars.field],
             fun k' hk' => ?_⟩
           cases k' <;> simp [assignParam, Key.name, Vars.field] at hk' ⊢)
  · exact absurd h (by simp)

theorem paramLoop_last_wins (env : Env) :
    ∀ (l : List GoString) (v : Vars), v.err = none →
      (∀ tok ∈ l, (decodeToken env tok).isSome = true) →
      ∃ v', paramLoop env v l = Except.ok v' ∧
        ∀ k, v'.field k = (lastValue env k l).getD (v.field k) := by
  intro l
  induction l with
  | nil => intro v _ _; exact ⟨v, rfl, fun k => by simp [lastValue]⟩
  | cons tok rest ih =>
    intro v hv hacc
    have htok := hacc tok (List.mem_cons_self _ _)
    obtain ⟨⟨k0, val0⟩, hdec⟩ := Option.isSome_iff_exists.mp htok
    obtain ⟨raw, hs, herr, hset, hkeep⟩ := assignParam_decoded env tok k0 val0 hdec v hv
    obtain ⟨v', hloop, hfield⟩ :=
      ih (assignParam env v k0.name raw) herr (fun t ht => hacc t (List.mem_cons_of_mem _ ht))
    refine ⟨v', ?_, fun k => ?_⟩
    · simp only [paramLoop, hs, herr]; exact hloop
    · rw [hfield k]
      simp only [lastValue, hdec]
      cases hl : lastValue env k rest with
      | some val => simp
      | none =>
        by_cases hk : k0 = k
        · subst hk; simp [hset]
        · simp [hk, hkeep k (Ne.symm hk)]

theorem Vars_default_field (k : Key) : ({} : Vars).field k = defaultValue k := by
  cases k <;> rfl

/-! ## `Hex2RGB` -/

theorem le_lor (n m : Nat) : n ≤ n ||| m :=
  Nat.le_of_testBit (fun i h => by simp [h])

set_option maxRecDepth 100000 in
theorem digitVal_small :
    ∀ n : Nat, n < 123 →
      (if isHexDigit (Char.ofNat n) then
        digitVal (Char.ofNat n) == some (hexDigitValue (Char.ofNat n)) &&
          decide (hexDigitValue (Char.ofNat n) < 16)
      else (digitVal (Char.ofNat n)).all (fun d => decide (16 ≤ d))) = true := by
  decide

theorem digitVal_spec (c : Char) :
    (isHexDigit c = true → digitVal c = some (hexDigitValue c) ∧ hexDigitValue c < 16) ∧
    (isHexDigit c = false → ∀ d, digitVal c = some d → 16 ≤ d) := by
  by_cases hc : c.toNat < 123
  · have h := digitVal_small c.toNat hc
    rw [Char.ofNat_toNat] at h
    cases hx : isHexDigit c with
    | true =>
      simp only [hx, if_true, Bool.and_eq_true, beq_iff_eq, decide_eq_true_eq] at h
      simp [h]
    | false =>
      simp only [hx, Bool.false_eq_true, if_false] at h
      refine ⟨by simp, fun _ d hd => ?_⟩
      rw [hd] at h
      simpa using h
  · have h1 : ¬ (c.toNat ||| 32) ≤ 122 := by
      have := le_lor c.toNat 32
      omega
    have h2 : digitVal c = none := by
      unfold digitVal
      rw [if_neg (by omega), if_neg (fun h => h1 h.2)]
    have h3 : isHexDigit c = false := by
      unfold isHexDigit
      simp only [Bool.or_eq_false_iff, Bool.and_eq_false_iff, decide_eq_false_iff_not]
      omega
    simp [h2, h3]

theorem hexFold_ge (cs : List Char) :
    ∀ n : Nat, n ≤ cs.foldl (fun n c => n * 16 + hexDigitValue c) n := by
  induction cs with
  | nil => intro n; simp
  | cons c cs ih =>
    intro n
    simp only [List.foldl_cons]
    have := ih (n * 16 + hexDigitValue c)
    omega

theorem hexFold_lt (cs : List Char) (hall : cs.all isHexDigit = true) :
    ∀ n : Nat, cs.foldl (fun n c => n * 16 + hexDigitValue c) n < (n + 1) * 16 ^ cs.length := by
  induction cs with
  | nil => intro n; simp
  | cons c cs ih =>
    intro n
    simp only [List.all_cons, Bool.and_eq_true] at hall
    simp only [List.foldl_cons, List.length_cons]
    have h1 := ih hall.2 (n * 16 + hexDigitValue c)
    have h2 := ((digitVal_spec c).1 hall.1).2
    have h3 : (n * 16 + hexDigitValue c + 1) * 16 ^ cs.length ≤ (n + 1) * 16 * 16 ^ cs.length :=
      Nat.mul_le_mul_right _ (by omega)
    calc _ < _ := h1
      _ ≤ _ := h3
      _ = _ := by ring

theorem parseUintLoop_nonhex (cutoff maxVal : Nat) (s0 : GoString) (cs : List Char)
    (hall : cs.all isHexDigit = false) :
    ∀ n : Nat, (parseUintLoop 16 cutoff maxVal s0 n cs).2 ≠ none := by
  induction cs with
  | nil => simp at hall
  | cons c cs ih =>
    intro n
    unfold parseUintLoop
    cases hd : digitVal c with
    | none => simp
    | some d =>
      simp only
      split
      · simp
      · rename_i hlt
        have hc : isHexDigit c = true := by
          cases hx : isHexDigit c with
          | true => rfl
          | false => exact absurd ((digitVal_spec c).2 hx d hd) hlt
        have hrest : cs.all isHexDigit = false := by
          simpa [List.all_cons, hc] using hall
        split
        · simp
        · split
          · simp
          · exact ih hrest _

theorem parseUintLoop_hex (s0 : GoString) (cs : List Char) (hall : cs.all isHexDigit = true) :
    ∀ n : Nat, n < 2 ^ 32 →
      (cs.foldl (fun n c => n * 16 + hexDigitValue c) n < 2 ^ 32 →
        parseUintLoop 16 ((2 ^ 64 - 1) / 16 + 1) (2 ^ 32 - 1) s0 n cs =
          (cs.foldl (fun n c => n * 16 + hexDigitValue c) n, none)) ∧
      (2 ^ 32 ≤ cs.foldl (fun n c => n * 16 + hexDigitValue c) n →
        (parseUintLoop 16 ((2 ^ 64 - 1) / 16 + 1) (2 ^ 32 - 1) s0 n cs).2 ≠ none) := by
  induction cs with
  | nil =>
    intro n hn
    refine ⟨fun _ => by simp [parseUintLoop], fun h => ?_⟩
    simp only [List.foldl_nil] at h
    omega
  | cons c cs ih =>
    intro n hn
    simp only [List.all_cons, Bool.and_eq_true] at hall
    obtain ⟨hd, hlt⟩ := (digitVal_spec c).1 hall.1
    have hge := hexFold_ge cs (n * 16 + hexDigitValue c)
    simp only [List.foldl_cons]
    unfold parseUintLoop
    simp only [hd]
    rw [if_neg (by omega), if_neg (by omega)]
    have e1 : n * 16 % 2 ^ 64 = n * 16 := Nat.mod_eq_of_lt (by omega)
    have e2 : (n * 16 + hexDigitValue c) % 2 ^ 64 = n * 16 + hexDigitValue c :=
      Nat.mod_eq_of_lt (by omega)
    simp only [e1, e2]
    by_cases hbig : 2 ^ 32 - 1 < n * 16 + hexDigitValue c
    · rw [if_pos (Or.inr hbig)]
      refine ⟨fun h => ?_, fun _ => by simp⟩
      omega
    · rw [if_neg (by omega)]
      exact ih hall.2 _ (by omega)

theorem ParseUint_hex (s : GoString) :
    (isHexNumeral s = true ∧ hexValue s < 2 ^ 32 → ParseUint s 16 32 = (hexValue s, none)) ∧
    (¬ (isHexNumeral s = true ∧ hexValue s < 2 ^ 32) → (ParseUint s 16 32).2 ≠ none) := by
  unfold ParseUint isHexNumeral hexValue
  by_cases hs : s = []
  · subst hs; simp
  · rw [if_neg hs]
    have hemp : s.isEmpty = false := by
      cases s with
      | nil => exact absurd rfl hs
      | cons _ _ => rfl
    simp only [hemp, Bool.not_false, Bool.true_and]
    cases hall : s.all isHexDigit with
    | false =>
      refine ⟨fun h => absurd h.1 (by simp), fun _ => parseUintLoop_nonhex _ _ s s hall 0⟩
    | true =>
      have h := parseUintLoop_hex s s hall 0 (by norm_num)
      refine ⟨fun hv => h.1 hv.2, fun hv => h.2 ?_⟩
      simp only [true_and, not_lt] at hv
      exact hv

/-! ## Claims about the token grammar -/

/-- C1: when every token of the list is accepted by the token decoder (it
splits into a recognized key and a value that decodes without error), the
parameter loop of `Process` runs to its end without error, and each
accumulated field is the decoded value of the last token carrying its key, or
its default (x = 0, y = 0, g = "se", t = 100, else zero or empty) when no
token carries it. -/
theorem last_token_wins (env : Env) (args : CmdArgs)
    (hacc : ∀ tok ∈ args.Params, (decodeToken env tok).isSome = true) :
    ∃ v, paramLoop env {} args.Params = Except.ok v ∧
      ∀ k, v.field k = (lastValue env k args.Params).getD (defaultValue k) := by
  obtain ⟨v, hloop, hfield⟩ := paramLoop_last_wins env args.Params {} rfl hacc
  exact ⟨v, hloop, fun k => by rw [hfield k, Vars_default_field]⟩

/-- Witness of C1: with two `x` tokens the second one wins, and `t`, which no
token carries, keeps its default 100. -/
theorem last_token_wins_witness :
    (∀ tok ∈ (sampleArgs ["x_1", "g_nw", "x_2", "text_L3cucG5n"]).Params,
        (decodeToken sampleEnv tok).isSome = true) ∧
    ∃ v, paramLoop sampleEnv {} (sampleArgs ["x_1", "g_nw", "x_2", "text_L3cucG5n"]).Params
          = Except.ok v ∧
      v.field Key.x = FieldValue.int 2 ∧ v.field Key.t = FieldValue.int 100 ∧
      v.field Key.text = FieldValue.str "/w.png".toList := by
  refine ⟨by decide, ?_⟩
  obtain ⟨v, hloop, hfield⟩ :=
    last_token_wins sampleEnv (sampleArgs ["x_1", "g_nw", "x_2", "text_L3cucG5n"]) (by decide)
  refine ⟨v, hloop, ?_, ?_, ?_⟩
  · rw [hfield]; decide
  · rw [hfield]; decide
  · rw [hfield]; decide

/-- C2, evaluated at the failing input: the URL-safe base64 encoding of "???"
is "Pz8_", which the decoder helper maps back to "???"; yet `Process` rejects
each of the tokens `text_Pz8_`, `image_Pz8_` and `type_Pz8_` with the
malformed-token error, whatever the helpers and collaborators, because the
`_` of the encoded value makes the token split into three parts. -/
theorem base64_value_with_underscore_rejected :
    base64UrlEncode "???".toList = "Pz8_".toList ∧
    base64UrlDecodeString "Pz8_".toList = ("???".toList, none) ∧
    ∀ (env : Env) (pre : GoString) (img : Image),
      Process env ⟨["text_Pz8_".toList], pre, img⟩ =
        ⟨none, some GoError.invalidResizeParams, []⟩ ∧
      Process env ⟨["image_Pz8_".toList], pre, img⟩ =
        ⟨none, some GoError.invalidResizeParams, []⟩ ∧
      Process env ⟨["type_Pz8_".toList], pre, img⟩ =
        ⟨none, some GoError.invalidResizeParams, []⟩ := by
  refine ⟨by decide, by decide, fun env pre img => ⟨?_, ?_, ?_⟩⟩
  · have hs : Split "text_Pz8_".toList '_' = ["text".toList, "Pz8".toList, []] := by decide
    exact Process_of_loop_error env _ _ (by simp only [paramLoop, hs])
  · have hs : Split "image_Pz8_".toList '_' = ["image".toList, "Pz8".toList, []] := by decide
    exact Process_of_loop_error env _ _ (by simp only [paramLoop, hs])
  · have hs : Split "type_Pz8_".toList '_' = ["type".toList, "Pz8".toList, []] := by decide
    exact Process_of_loop_error env _ _ (by simp only [paramLoop, hs])

/-- C3: when the token list contains a token that does not split on "_" into
exactly two parts, `Process` returns a non-nil error and makes no collaborator
call at all (no loader, no Composite, no Label), whatever the key part is. -/
theorem malformed_token_aborts (env : Env) (args : CmdArgs) (tok : GoString)
    (hmem : tok ∈ args.Params) (hsplit : (Split tok '_').length ≠ 2) :
    (Process env args).err ≠ none ∧ (Process env args).calls = [] := by
  obtain ⟨e, he⟩ := paramLoop_aborts env tok (aborts_of_split env tok hsplit) _ hmem {}
  rw [Process_of_loop_error env args e he]
  simp

/-- Witness of C3: a token without "_", the empty token, and a token with two
"_" behind the recognized key `x`, each next to a valid image token. -/
theorem malformed_token_aborts_witness :
    ("abc".toList ∈ (sampleArgs ["image_L3cucG5n", "abc"]).Params ∧
      (Split "abc".toList '_').length ≠ 2 ∧
      (Process sampleEnv (sampleArgs ["image_L3cucG5n", "abc"])).err ≠ none ∧
      (Process sampleEnv (sampleArgs ["image_L3cucG5n", "abc"])).calls = []) ∧
    ((Process sampleEnv (sampleArgs ["image_L3cucG5n", ""])).err ≠ none ∧
      (Process sampleEnv (sampleArgs ["image_L3cucG5n", ""])).calls = []) ∧
    ((Process sampleEnv (sampleArgs ["x_1_2", "image_L3cucG5n"])).err ≠ none ∧
      (Process sampleEnv (sampleArgs ["x_1_2", "image_L3cucG5n"])).calls = []) :=
  ⟨⟨by decide, by decide,
      malformed_token_aborts sampleEnv (sampleArgs ["image_L3cucG5n", "abc"]) "abc".toList
        (by decide) (by decide)⟩,
    malformed_token_aborts sampleEnv (sampleArgs ["image_L3cucG5n", ""]) "".toList
      (by decide) (by decide),
    malformed_token_aborts sampleEnv (sampleArgs ["x_1_2", "image_L3cucG5n"]) "x_1_2".toList
      (by decide) (by decide)⟩

/-- C4: when the token list contains a token made of a numeric key (x, y, t,
P, size, shadow, rotate, fill), "_" and a value that is not a decimal integer,
`Process` returns a nil result with a non-nil error and makes no collaborator
call, whatever else the list carries. -/
theorem non_numeric_value_aborts (env : Env) (args : CmdArgs) (key val : GoString)
    (hkey : key ∈ numericKeys) (hval : isDecimalInteger val = false)
    (hmem : key ++ '_' :: val ∈ args.Params) :
    (Process env args).info = none ∧ (Process env args).err ≠ none ∧
      (Process env args).calls = [] := by
  obtain ⟨e, he⟩ :=
    paramLoop_aborts env _ (aborts_of_numeric env key val hkey hval) _ hmem {}
  rw [Process_of_loop_error env args e he]
  simp

/-- Witness of C4: the token `t_abc` after a valid image token and before a
valid text token. -/
theorem non_numeric_value_aborts_witness :
    "t".toList ∈ numericKeys ∧ isDecimalInteger "abc".toList = false ∧
    "t".toList ++ '_' :: "abc".toList ∈
      (sampleArgs ["image_L3cucG5n", "t_abc", "text_L3cucG5n"]).Params ∧
    (Process sampleEnv (sampleArgs ["image_L3cucG5n", "t_abc", "text_L3cucG5n"])).info = none ∧
    (Process sampleEnv (sampleArgs ["image_L3cucG5n", "t_abc", "text_L3cucG5n"])).err ≠ none ∧
    (Process sampleEnv (sampleArgs ["image_L3cucG5n", "t_abc", "text_L3cucG5n"])).calls = [] :=
  ⟨by decide, by decide, by decide,
    non_numeric_value_aborts sampleEnv
      (sampleArgs ["image_L3cucG5n", "t_abc", "text_L3cucG5n"]) "t".toList "abc".toList
      (by decide) (by decide) (by decide)⟩

/-- C5: a token that splits on "_" into exactly two parts and whose key part
is not one of the thirteen recognized keys (compared case-sensitively) can be
inserted at any position of a token list without changing what `Process`
returns or the collaborator calls it makes. -/
theorem unknown_key_ignored (env : Env) (pre : GoString) (img : Image)
    (l1 l2 : List GoString) (u key val : GoString)
    (hsplit : Split u '_' = [key, val]) (hkey : Key.ofName key = none) :
    Process env ⟨l1 ++ u :: l2, pre, img⟩ = Process env ⟨l1 ++ l2, pre, img⟩ := by
  have h := paramLoop_skip_unknown env u key val hsplit hkey l1 l2
  simp only [Process, h]
  rfl

/-- Witness of C5: the keys `p` and `X` are unknown, the recognized ones being
`P` and `x`. -/
theorem unknown_key_ignored_witness :
    (Split "p_50".toList '_' = ["p".toList, "50".toList] ∧ Key.ofName "p".toList = none ∧
      Process sampleEnv ⟨["x_10".toList] ++ "p_50".toList :: ["image_L3cucG5n".toList],
          "bucket".toList, sampleImg⟩ =
        Process sampleEnv ⟨["x_10".toList] ++ ["image_L3cucG5n".toList],
          "bucket".toList, sampleImg⟩) ∧
    (Split "X_zz".toList '_' = ["X".toList, "zz".toList] ∧ Key.ofName "X".toList = none ∧
      Process sampleEnv ⟨[] ++ "X_zz".toList :: ["text_L3cucG5n".toList],
          "bucket".toList, sampleImg⟩ =
        Process sampleEnv ⟨[] ++ ["text_L3cucG5n".toList], "bucket".toList, sampleImg⟩) :=
  ⟨⟨by decide, by decide,
      unknown_key_ignored sampleEnv _ _ _ _ _ "p".toList "50".toList (by decide) (by decide)⟩,
    ⟨by decide, by decide,
      unknown_key_ignored sampleEnv _ _ _ _ _ "X".toList "zz".toList (by decide) (by decide)⟩⟩

/-! ## Claims about the dispatch -/

/-- C6: when the parameter loop ends without error and leaves both `image`
and `text` empty, `Process` returns (nil, nil) and makes no collaborator call:
no loader, no Composite, no Label, and no read of the background metadata. -/
theorem empty_watermark_noop (env : Env) (args : CmdArgs) (v : Vars)
    (hloop : paramLoop env {} args.Params = Except.ok v)
    (himage : v.image = []) (htext : v.text = []) :
    (Process env args).info = none ∧ (Process env args).err = none ∧
      (Process env args).calls = [] := by
  rw [Process_noop env args v hloop himage htext]
  exact ⟨rfl, rfl, rfl⟩

/-- Witness of C6: a list with neither key, and a list whose `image` and
`text` values decode to the empty string. -/
theorem empty_watermark_noop_witness :
    ((Process sampleEnv (sampleArgs ["x_10", "g_nw", "t_60"])).info = none ∧
      (Process sampleEnv (sampleArgs ["x_10", "g_nw", "t_60"])).err = none ∧
      (Process sampleEnv (sampleArgs ["x_10", "g_nw", "t_60"])).calls = []) ∧
    ((Process sampleEnv (sampleArgs ["image_", "text_"])).info = none ∧
      (Process sampleEnv (sampleArgs ["image_", "text_"])).err = none ∧
      (Process sampleEnv (sampleArgs ["image_", "text_"])).calls = []) :=
  ⟨empty_watermark_noop sampleEnv (sampleArgs ["x_10", "g_nw", "t_60"])
      { x := 10, g := "nw".toList, t := 60 } (by rfl) (by decide) (by decide),
    empty_watermark_noop sampleEnv (sampleArgs ["image_", "text_"]) {}
      (by rfl) (by decide) (by decide)⟩

/-- C7: after a parameter loop that ends without error, a non-empty `image`
makes `Process` run `composite` only, whether or not `text` is empty too: the
loader is called with the prefixed overlay path and Label is never called.
`Process` runs `label` when `image` is empty and `text` is not, and a Label
call is made only in that case. -/
theorem image_mode_precedence (env : Env) (args : CmdArgs) (v : Vars)
    (hloop : paramLoop env {} args.Params = Except.ok v) :
    (v.image ≠ [] →
      Process env args =
        ⟨none,
          (composite env args args.Img.Metadata v.image v.p
            (env.ensureInRange 0 args.Img.Metadata.Width v.x)
            (env.ensureInRange 0 args.Img.Metadata.Height v.y) v.g v.t).1,
          Call.imgMetadata ::
            (composite env args args.Img.Metadata v.image v.p
              (env.ensureInRange 0 args.Img.Metadata.Width v.x)
              (env.ensureInRange 0 args.Img.Metadata.Height v.y) v.g v.t).2⟩ ∧
      Call.loadWithUrl (args.ObjectPrefix ++
          (if HasPrefix v.image "/".toList then v.image else "/".toList ++ v.image)) ∈
        (Process env args).calls ∧
      ∀ lp, Call.label lp ∉ (Process env args).calls) ∧
    (v.image = [] → v.text ≠ [] →
      Process env args =
        ⟨none,
          (label env args args.Img.Metadata v.text v.fontType v.fontColor v.fontSize
            v.fontShadow v.fontRotate v.fill
            (env.ensureInRange 0 args.Img.Metadata.Width v.x)
            (env.ensureInRange 0 args.Img.Metadata.Height v.y) v.g v.t).1,
          Call.imgMetadata ::
            (label env args args.Img.Metadata v.text v.fontType v.fontColor v.fontSize
              v.fontShadow v.fontRotate v.fill
              (env.ensureInRange 0 args.Img.Metadata.Width v.x)
              (env.ensureInRange 0 args.Img.Metadata.Height v.y) v.g v.t).2⟩ ∧
      ∀ url, Call.loadWithUrl url ∉ (Process env args).calls) ∧
    (∀ lp, Call.label lp ∈ (Process env args).calls → v.image = [] ∧ v.text ≠ []) := by
  have himg := Process_image env args v hloop
  have htxt := Process_text env args v hloop
  refine ⟨fun h => ⟨himg h, ?_, fun lp hlp => ?_⟩, fun h1 h2 => ⟨htxt h1 h2, fun url hurl => ?_⟩,
    fun lp hlp => ?_⟩
  · rw [himg h]
    obtain ⟨rest, hrest⟩ := composite_calls_head env args args.Img.Metadata v.image v.p
      (env.ensureInRange 0 args.Img.Metadata.Width v.x)
      (env.ensureInRange 0 args.Img.Metadata.Height v.y) v.g v.t
    simp only [hrest, List.mem_cons, true_or, or_true]
  · rw [himg h] at hlp
    simp only [List.mem_cons] at hlp
    rcases hlp with hlp | hlp
    · exact absurd hlp (by simp)
    · exact composite_no_label _ _ _ _ _ _ _ _ _ _ hlp
  · rw [htxt h1 h2] at hurl
    simp only [List.mem_cons] at hurl
    rcases hurl with hurl | hurl
    · exact absurd hurl (by simp)
    · obtain ⟨lp, hlp⟩ := label_only_label _ _ _ _ _ _ _ _ _ _ _ _ _ _ _ hurl
      exact absurd hlp (by simp)
  · by_cases h1 : v.image = []
    · refine ⟨h1, fun h2 => ?_⟩
      rw [Process_noop env args v hloop h1 h2] at hlp
      simp at hlp
    · rw [himg h1] at hlp
      simp only [List.mem_cons] at hlp
      rcases hlp with hlp | hlp
      · exact absurd hlp (by simp)
      · exact absurd hlp (composite_no_label _ _ _ _ _ _ _ _ _ _)

/-- Witness of C7: with both `text` and `image` given, the loader is called
with the prefixed overlay path and Label is not called; with `text` alone the
loader is not called. -/
theorem image_mode_precedence_witness :
    (Call.loadWithUrl "bucket/w.png".toList ∈
        (Process sampleEnv (sampleArgs ["text_L3cucG5n", "image_L3cucG5n"])).calls ∧
      ∀ lp, Call.label lp ∉
        (Process sampleEnv (sampleArgs ["text_L3cucG5n", "image_L3cucG5n"])).calls) ∧
    (∀ url, Call.loadWithUrl url ∉ (Process sampleEnv (sampleArgs ["text_L3cucG5n"])).calls) :=
  ⟨((image_mode_precedence sampleEnv (sampleArgs ["text_L3cucG5n", "image_L3cucG5n"])
      { text := "/w.png".toList, image := "/w.png".toList } (by rfl)).1 (by decide)).2,
    ((image_mode_precedence sampleEnv (sampleArgs ["text_L3cucG5n"])
      { text := "/w.png".toList } (by rfl)).2.1 (by decide) (by decide)).2⟩

/-! ## Blend policy -/

theorem composite_mode (env : Env) (args : CmdArgs) (bgInfo : ImageMetadata)
    (image : GoString) (p x y : Int) (g : GoString) (t : Int)
    (ref : ImageRef) (mod : BlendMode) (cx cy : Int)
    (h : Call.composite ref mod cx cy ∈ (composite env args bgInfo image p x y g t).2) :
    mod = if t < 80 ∧ t > 50 then BlendMode.BlendModeScreen else BlendMode.BlendModeOver := by
  unfold composite at h
  simp only at h
  split at h
  · simp at h
  · split at h
    · split at h
      · simp at h
      · simp at h
        exact h.2.1
    · simp at h
      exact h.2.1

theorem label_no_composite (env : Env) (args : CmdArgs) (bgInfo : ImageMetadata)
    (text fontType fontColor : GoString) (fontSize fontShadow fontRotate fill : Int)
    (x y : Int) (g : GoString) (t : Int) (ref : ImageRef) (mod : BlendMode) (cx cy : Int) :
    Call.composite ref mod cx cy ∉
      (label env args bgInfo text fontType fontColor fontSize fontShadow fontRotate
        fill x y g t).2 := by
  intro h
  obtain ⟨lp, hlp⟩ := label_only_label _ _ _ _ _ _ _ _ _ _ _ _ _ _ _ h
  exact absurd hlp (by simp)

theorem assignParam_t (env : Env) (v : Vars) (key val : GoString)
    (hkey : key ≠ "t".toList) : (assignParam env v key val).t = v.t := by
  cases hk : Key.ofName key with
  | none => rw [assignParam_unknown env v key val hk]
  | some k =>
    have hname := Key.ofName_some key k hk
    subst hname
    cases k <;> first | exact absurd rfl hkey | simp [assignParam, Key.name]

theorem paramLoop_t (env : Env) :
    ∀ (l : List GoString) (v v' : Vars),
      (∀ tok ∈ l, (Split tok '_').head? ≠ some "t".toList) →
      paramLoop env v l = Except.ok v' → v'.t = v.t := by
  intro l
  induction l with
  | nil => intro v v' _ h; simp only [paramLoop, Except.ok.injEq] at h; rw [h]
  | cons tok rest ih =>
    intro v v' hno h
    simp only [paramLoop] at h
    split at h
    · rename_i key val hs
      have hkey : key ≠ "t".toList := by
        have := hno tok (List.mem_cons_self _ _)
        rw [hs] at this
        simpa using this
      split at h
      · exact absurd h (by simp)
      · rw [ih _ _ (fun t ht => hno t (List.mem_cons_of_mem _ ht)) h]
        exact assignParam_t env v key val hkey
    · exact absurd h (by simp)

/-- C8: for every integer opacity percent `t`, negative and above 100
included, the blend mode of every Composite call made by `composite` is
"screen" exactly when 50 < t < 80 and "over" otherwise; and when no token of
the request has key `t`, every Composite call made by `Process` uses "over". -/
theorem blend_policy (env : Env) (args : CmdArgs) :
    (∀ (bgInfo : ImageMetadata) (image : GoString) (p x y : Int) (g : GoString) (t : Int)
        (ref : ImageRef) (mod : BlendMode) (cx cy : Int),
        Call.composite ref mod cx cy ∈ (composite env args bgInfo image p x y g t).2 →
        (mod = BlendMode.BlendModeScreen ↔ 50 < t ∧ t < 80) ∧
        (mod = BlendMode.BlendModeOver ↔ ¬ (50 < t ∧ t < 80))) ∧
    ((∀ tok ∈ args.Params, (Split tok '_').head? ≠ some "t".toList) →
      ∀ (ref : ImageRef) (mod : BlendMode) (cx cy : Int),
        Call.composite ref mod cx cy ∈ (Process env args).calls →
        mod = BlendMode.BlendModeOver) := by
  constructor
  · intro bgInfo image p x y g t ref mod cx cy h
    have hm := composite_mode env args bgInfo image p x y g t ref mod cx cy h
    by_cases ht : t < 80 ∧ t > 50
    · rw [if_pos ht] at hm
      subst hm
      simp only [true_iff, reduceCtorEq, false_iff, not_not]
      exact ⟨⟨ht.2, ht.1⟩, ⟨ht.2, ht.1⟩⟩
    · rw [if_neg ht] at hm
      subst hm
      simp only [reduceCtorEq, false_iff, true_iff]
      exact ⟨fun h => ht ⟨h.2, h.1⟩, fun h => ht ⟨h.2, h.1⟩⟩
  · intro hno ref mod cx cy h
    cases hloop : paramLoop env {} args.Params with
    | error e =>
      rw [Process_of_loop_error env args e hloop] at h
      simp at h
    | ok v =>
      have ht : v.t = 100 := paramLoop_t env _ {} v hno hloop
      by_cases himg : v.image = []
      · by_cases htxt : v.text = []
        · rw [Process_noop env args v hloop himg htxt] at h
          simp at h
        · rw [Process_text env args v hloop himg htxt] at h
          simp only [List.mem_cons, reduceCtorEq, false_or] at h
          exact absurd h (label_no_composite _ _ _ _ _ _ _ _ _ _ _ _ _ _ _ _ _ _)
      · rw [Process_image env args v hloop himg] at h
        simp only [List.mem_cons, reduceCtorEq, false_or] at h
        have hm := composite_mode _ _ _ _ _ _ _ _ _ _ _ _ _ h
        rw [ht] at hm
        simpa using hm

/-- Witness of C8: the modes at 50, 51, 79, 80, 100 and -5, and a request
without a `t` token. -/
theorem blend_policy_witness :
    Call.composite ⟨1, ⟨100, 40⟩⟩ BlendMode.BlendModeOver 400 460 ∈
      (composite sampleEnv (sampleArgs []) ⟨500, 500⟩ "w.png".toList 0 0 0 "se".toList 50).2 ∧
    Call.composite ⟨1, ⟨100, 40⟩⟩ BlendMode.BlendModeScreen 400 460 ∈
      (composite sampleEnv (sampleArgs []) ⟨500, 500⟩ "w.png".toList 0 0 0 "se".toList 51).2 ∧
    Call.composite ⟨1, ⟨100, 40⟩⟩ BlendMode.BlendModeScreen 400 460 ∈
      (composite sampleEnv (sampleArgs []) ⟨500, 500⟩ "w.png".toList 0 0 0 "se".toList 79).2 ∧
    Call.composite ⟨1, ⟨100, 40⟩⟩ BlendMode.BlendModeOver 400 460 ∈
      (composite sampleEnv (sampleArgs []) ⟨500, 500⟩ "w.png".toList 0 0 0 "se".toList 80).2 ∧
    Call.composite ⟨1, ⟨100, 40⟩⟩ BlendMode.BlendModeOver 400 460 ∈
      (composite sampleEnv (sampleArgs []) ⟨500, 500⟩ "w.png".toList 0 0 0 "se".toList 100).2 ∧
    Call.composite ⟨1, ⟨100, 40⟩⟩ BlendMode.BlendModeOver 400 460 ∈
      (composite sampleEnv (sampleArgs []) ⟨500, 500⟩ "w.png".toList 0 0 0 "se".toList (-5)).2 ∧
    (50 < (51 : Int) ∧ (51 : Int) < 80) ∧
    Call.composite ⟨1, ⟨100, 40⟩⟩ BlendMode.BlendModeOver 400 460 ∈
      (Process sampleEnv (sampleArgs ["image_L3cucG5n"])).calls ∧
    (∀ (ref : ImageRef) (mod : BlendMode) (cx cy : Int),
      Call.composite ref mod cx cy ∈ (Process sampleEnv (sampleArgs ["image_L3cucG5n"])).calls →
      mod = BlendMode.BlendModeOver) :=
  ⟨by decide, by decide, by decide, by decide, by decide, by decide,
    ((blend_policy sampleEnv (sampleArgs [])).1 ⟨500, 500⟩ "w.png".toList 0 0 0 "se".toList 51
      ⟨1, ⟨100, 40⟩⟩ BlendMode.BlendModeScreen 400 460 (by decide)).1.mp rfl,
    by decide,
    (blend_policy sampleEnv (sampleArgs ["image_L3cucG5n"])).2 (by decide)⟩

/-! ## Claims about `Hex2RGB` -/

theorem Hex2RGB_of_ok (hex : GoString) (n : Nat) (h : ParseUint hex 16 32 = (n, none)) :
    Hex2RGB hex = (⟨n / 65536 % 256, n / 256 % 256, n % 256⟩, none) := by
  have e255 : (0xFF : Nat) = 2 ^ 8 - 1 := by norm_num
  simp only [Hex2RGB, h, Nat.shiftRight_eq_div_pow, e255, Nat.and_pow_two_sub_one_eq_mod,
    Nat.mod_mod]

theorem Hex2RGB_of_err (hex : GoString) (h : (ParseUint hex 16 32).2 ≠ none) :
    (Hex2RGB hex).1 = ⟨0, 0, 0⟩ ∧ (Hex2RGB hex).2 ≠ none := by
  rcases hp : ParseUint hex 16 32 with ⟨n, _ | e⟩
  · rw [hp] at h; exact absurd rfl h
  · simp [Hex2RGB, hp]

/-- C9: when `Hex2RGB` succeeds, its argument is a hexadecimal numeral that
`ParseUint` parsed as its base-16 value v, and the colour is R = (v div 65536)
mod 256, G = (v div 256) mod 256, B = v mod 256; and every string of at most
four hexadecimal digits gives R = 0. -/
theorem Hex2RGB_bits (hex : GoString) :
    ((Hex2RGB hex).2 = none →
      isHexNumeral hex = true ∧ ParseUint hex 16 32 = (hexValue hex, none) ∧
      (Hex2RGB hex).1 =
        ⟨hexValue hex / 65536 % 256, hexValue hex / 256 % 256, hexValue hex % 256⟩) ∧
    (hex.length ≤ 4 → hex.all isHexDigit = true → (Hex2RGB hex).1.R = 0) := by
  by_cases hok : isHexNumeral hex = true ∧ hexValue hex < 2 ^ 32
  · have hp := (ParseUint_hex hex).1 hok
    have hr := Hex2RGB_of_ok hex _ hp
    refine ⟨fun _ => ⟨hok.1, hp, by rw [hr]⟩, fun hlen hall => ?_⟩
    rw [hr]
    have hlt := hexFold_lt hex hall 0
    have hpow : 16 ^ hex.length ≤ 16 ^ 4 := Nat.pow_le_pow_right (by norm_num) hlen
    have hv : hexValue hex < 65536 := by
      unfold hexValue
      omega
    simp [Nat.div_eq_of_lt hv]
  · have he := Hex2RGB_of_err hex ((ParseUint_hex hex).2 hok)
    exact ⟨fun h => absurd h he.2, fun _ _ => by rw [he.1]⟩

/-- Witness of C9: "ff0000" is (255, 0, 0), "00ff00" is (0, 255, 0), and the
four-digit "12ab" has R = 0. -/
theorem Hex2RGB_bits_witness :
    ((Hex2RGB "ff0000".toList).2 = none ∧
      (Hex2RGB "ff0000".toList).1 = ⟨255, 0, 0⟩) ∧
    ((Hex2RGB "00ff00".toList).2 = none ∧
      (Hex2RGB "00ff00".toList).1 = ⟨0, 255, 0⟩) ∧
    ("12ab".toList.length ≤ 4 ∧ "12ab".toList.all isHexDigit = true ∧
      (Hex2RGB "12ab".toList).1.R = 0) :=
  ⟨⟨by decide, ((Hex2RGB_bits "ff0000".toList).1 (by decide)).2.2⟩,
    ⟨by decide, ((Hex2RGB_bits "00ff00".toList).1 (by decide)).2.2⟩,
    ⟨by decide, by decide, (Hex2RGB_bits "12ab".toList).2 (by decide) (by decide)⟩⟩

theorem hexFold_zeros (k : Nat) (s : GoString) :
    hexValue (List.replicate k '0' ++ s) = hexValue s := by
  unfold hexValue
  rw [List.foldl_append]
  congr 1
  induction k with
  | zero => rfl
  | succ k ih =>
    rw [List.replicate_succ, List.foldl_cons]
    exact ih

/-- C10 fails as stated: "100000000" is a non-empty string of hexadecimal
digits, and `Hex2RGB` returns a range error for it. -/
theorem Hex2RGB_rejects_wide_numeral :
    isHexNumeral "100000000".toList = true ∧
    (Hex2RGB "100000000".toList).2 =
      some (GoError.rangeError "ParseUint" "100000000".toList) := by
  decide

/-- C10, amended: `Hex2RGB` succeeds exactly when its argument is a non-empty
string of hexadecimal digits whose base-16 value is below 2^32.  So it fails
for the empty string, for every string with a character outside 0-9, a-f, A-F,
and for every hexadecimal numeral of value 2^32 or more.  The length itself is
not validated: in front of a non-empty argument, leading zeros in any number
change neither the colour returned nor whether an error is returned. -/
theorem Hex2RGB_succeeds_iff (hex : GoString) :
    ((Hex2RGB hex).2 = none ↔ isHexNumeral hex = true ∧ hexValue hex < 2 ^ 32) ∧
    ((hex = [] ∨ ∃ c ∈ hex, isHexDigit c = false) → (Hex2RGB hex).2 ≠ none) ∧
    (isHexNumeral hex = true → 2 ^ 32 ≤ hexValue hex → (Hex2RGB hex).2 ≠ none) ∧
    (hex ≠ [] → ∀ k : Nat,
      (Hex2RGB (List.replicate k '0' ++ hex)).1 = (Hex2RGB hex).1 ∧
      ((Hex2RGB (List.replicate k '0' ++ hex)).2 = none ↔ (Hex2RGB hex).2 = none)) := by
  have hiff : ∀ s : GoString,
      (Hex2RGB s).2 = none ↔ isHexNumeral s = true ∧ hexValue s < 2 ^ 32 := by
    intro s
    constructor
    · intro h
      by_contra hno
      exact (Hex2RGB_of_err s ((ParseUint_hex s).2 hno)).2 h
    · intro h
      rw [Hex2RGB_of_ok s _ ((ParseUint_hex s).1 h)]
  have hcol : ∀ s : GoString, (Hex2RGB s).1 =
      (if isHexNumeral s = true ∧ hexValue s < 2 ^ 32 then
        ⟨hexValue s / 65536 % 256, hexValue s / 256 % 256, hexValue s % 256⟩
      else ⟨0, 0, 0⟩) := by
    intro s
    by_cases h : isHexNumeral s = true ∧ hexValue s < 2 ^ 32
    · rw [Hex2RGB_of_ok s _ ((ParseUint_hex s).1 h), if_pos h]
    · rw [(Hex2RGB_of_err s ((ParseUint_hex s).2 h)).1, if_neg h]
  refine ⟨hiff hex, fun h hok => ?_, fun hnum hval hok => ?_, fun hne k => ?_⟩
  · have hnum := ((hiff hex).1 hok).1
    simp only [isHexNumeral, Bool.and_eq_true, Bool.not_eq_true', List.isEmpty_eq_false,
      List.all_eq_true] at hnum
    rcases h with h | ⟨c, hc, hx⟩
    · exact hnum.1 h
    · rw [hnum.2 c hc] at hx
      exact absurd hx (by simp)
  · have := ((hiff hex).1 hok).2
    omega
  · have hnumeral : isHexNumeral (List.replicate k '0' ++ hex) = isHexNumeral hex := by
      have h1 : (List.replicate k '0' ++ hex).isEmpty = false := by
        cases hex with
        | nil => exact absurd rfl hne
        | cons c cs => cases k <;> rfl
      have h2 : hex.isEmpty = false := by
        cases hex with
        | nil => exact absurd rfl hne
        | cons c cs => rfl
      have h3 : (List.replicate k '0').all isHexDigit = true := by
        rw [List.all_eq_true]
        intro c hc
        rw [List.eq_of_mem_replicate hc]
        decide
      simp only [isHexNumeral, h1, h2, List.all_append, h3, Bool.true_and]
    have hvalue := hexFold_zeros k hex
    refine ⟨?_, ?_⟩
    · rw [hcol, hcol hex, hnumeral, hvalue]
    · rw [hiff, hiff hex, hnumeral, hvalue]

/-- Witness of C10 as amended: "zz0000", the empty string and "100000000"
fail, and "ff0000" behind ten leading zeros gives the colour of "ff0000"
without error. -/
theorem Hex2RGB_succeeds_iff_witness :
    (Hex2RGB "zz0000".toList).2 ≠ none ∧ (Hex2RGB "".toList).2 ≠ none ∧
    (Hex2RGB "100000000".toList).2 ≠ none ∧
    ((Hex2RGB (List.replicate 10 '0' ++ "ff0000".toList)).1 = ⟨255, 0, 0⟩ ∧
      (Hex2RGB (List.replicate 10 '0' ++ "ff0000".toList)).2 = none) :=
  ⟨(Hex2RGB_succeeds_iff "zz0000".toList).2.1 (Or.inr ⟨'z', by decide, by decide⟩),
    (Hex2RGB_succeeds_iff "".toList).2.1 (Or.inl rfl),
    (Hex2RGB_succeeds_iff "100000000".toList).2.2.1 (by decide) (by decide),
    ((Hex2RGB_succeeds_iff "ff0000".toList).2.2.2 (by decide) 10).1.trans (by decide),
    ((Hex2RGB_succeeds_iff "ff0000".toList).2.2.2 (by decide) 10).2.mpr (by decide)⟩

/-! ## The text branch in detail -/

theorem label_color_error (env : Env) (args : CmdArgs) (bgInfo : ImageMetadata)
    (text fontType fontColor : GoString) (fontSize fontShadow fontRotate fill : Int)
    (x y : Int) (g : GoString) (t : Int) (e : GoError)
    (hc : fontColor ≠ []) (he : (Hex2RGB fontColor).2 = some e) :
    label env args bgInfo text fontType fontColor fontSize fontShadow fontRotate fill x y g t =
      (some e, []) := by
  unfold label
  simp only [hc, ne_eq, not_false_eq_true, if_true]
  rcases hh : Hex2RGB fontColor with ⟨c, _ | e'⟩
  · rw [hh] at he; exact absurd he (by simp)
  · rw [hh] at he
    simp only [Option.some.injEq] at he
    subst he
    rfl

theorem label_rendered (env : Env) (args : CmdArgs) (bgInfo : ImageMetadata)
    (text fontType fontColor : GoString) (fontSize fontShadow fontRotate fill : Int)
    (x y : Int) (g : GoString) (t : Int)
    (hc : fontColor = [] ∨ (Hex2RGB fontColor).2 = none) :
    ∃ lp : LabelParams,
      label env args bgInfo text fontType fontColor fontSize fontShadow fontRotate fill x y g t =
        (args.Img.Label lp, [Call.label lp]) ∧
      lp.Text = text ∧ lp.Font = "OPPOSans R".toList ∧ lp.Width = 200 ∧
      lp.Height = float64 (float64 (fontSize : ℚ) * (3 / 4)) ∧
      lp.Alignment = Align.AlignCenter ∧
      lp.Color = (if fontColor = [] then ⟨0, 0, 0⟩ else (Hex2RGB fontColor).1) ∧
      lp.Opacity = (if t > 0 then float32 (float32 (t : ℚ) / 100) else 0) ∧
      ((lp.OffsetX, lp.OffsetY) =
        (float64 ((env.getRealOffset bgInfo.Width bgInfo.Height x y g
            ⟨truncToInt 200, truncToInt (float64 (float64 (fontSize : ℚ) * (3 / 4)))⟩).1 : ℚ),
         float64 ((env.getRealOffset bgInfo.Width bgInfo.Height x y g
            ⟨truncToInt 200, truncToInt (float64 (float64 (fontSize : ℚ) * (3 / 4)))⟩).2 : ℚ))) := by
  unfold label
  by_cases hempty : fontColor = []
  · simp only [hempty, ne_eq, not_true_eq_false, if_false, if_true]
    by_cases ht : t > 0
    · simp only [ht, if_true]
      exact ⟨_, rfl, rfl, rfl, rfl, rfl, rfl, rfl, rfl, rfl⟩
    · simp only [ht, if_false]
      exact ⟨_, rfl, rfl, rfl, rfl, rfl, rfl, rfl, rfl, rfl⟩
  · have hok : (Hex2RGB fontColor).2 = none := hc.resolve_left hempty
    simp only [hempty, ne_eq, not_false_eq_true, if_true, if_false]
    rcases hh : Hex2RGB fontColor with ⟨c, _ | e'⟩
    · by_cases ht : t > 0
      · simp only [ht, if_true]
        exact ⟨_, rfl, rfl, rfl, rfl, rfl, rfl, rfl, rfl, rfl⟩
      · simp only [ht, if_false]
        exact ⟨_, rfl, rfl, rfl, rfl, rfl, rfl, rfl, rfl, rfl⟩
    · rw [hh] at hok; exact absurd hok (by simp)

/-! ## The image branch in detail -/

theorem normalizePath_eq (image : GoString) :
    (if HasPrefix image "/".toList then image else "/".toList ++ image) = normalizePath image := by
  cases image with
  | nil => rfl
  | cons c cs =>
    by_cases hc : c = '/'
    · subst hc
      have h1 : HasPrefix ('/' :: cs) "/".toList = true := by
        simp [HasPrefix, List.isPrefixOf]
      simp only [h1, if_true, normalizePath, List.head?_cons]
    · have h1 : HasPrefix (c :: cs) "/".toList = false := by
        simp [HasPrefix, List.isPrefixOf, Ne.symm hc]
      have h2 : (c :: cs).head? ≠ some '/' := by simpa using hc
      simp only [h1, normalizePath, h2, if_false]
      rfl

theorem normalizePath_head (image : GoString) : (normalizePath image).head? = some '/' := by
  unfold normalizePath
  split
  · assumption
  · rfl

theorem composite_load_error (env : Env) (args : CmdArgs) (bgInfo : ImageMetadata)
    (image : GoString) (p x y : Int) (g : GoString) (t : Int) (e : GoError)
    (hload : env.LoadWithUrl (args.ObjectPrefix ++ normalizePath image) = Except.error e) :
    composite env args bgInfo image p x y g t =
      (some e, [Call.loadWithUrl (args.ObjectPrefix ++ normalizePath image)]) := by
  unfold composite
  simp only [normalizePath_eq, hload]

theorem composite_resize_error (env : Env) (args : CmdArgs) (bgInfo : ImageMetadata)
    (image : GoString) (p x y : Int) (g : GoString) (t : Int) (ref : ImageRef) (e : GoError)
    (hload : env.LoadWithUrl (args.ObjectPrefix ++ normalizePath image) = Except.ok ref)
    (hp : p > 0) (hresize : env.Resize ref p = Except.error e) :
    composite env args bgInfo image p x y g t =
      (some e, [Call.loadWithUrl (args.ObjectPrefix ++ normalizePath image),
                Call.resize ref p]) := by
  unfold composite
  simp only [normalizePath_eq, hload, hp, if_true, hresize]

theorem composite_resized (env : Env) (args : CmdArgs) (bgInfo : ImageMetadata)
    (image : GoString) (p x y : Int) (g : GoString) (t : Int) (ref : ImageRef)
    (m : ImageMetadata)
    (hload : env.LoadWithUrl (args.ObjectPrefix ++ normalizePath image) = Except.ok ref)
    (hp : p > 0) (hresize : env.Resize ref p = Except.ok m) :
    composite env args bgInfo image p x y g t =
      (args.Img.Composite ⟨ref.id, m⟩
          (if t < 80 ∧ t > 50 then BlendMode.BlendModeScreen else BlendMode.BlendModeOver)
          (env.getRealOffset bgInfo.Width bgInfo.Height x y g m).1
          (env.getRealOffset bgInfo.Width bgInfo.Height x y g m).2,
        [Call.loadWithUrl (args.ObjectPrefix ++ normalizePath image), Call.resize ref p,
         Call.refMetadata ⟨ref.id, m⟩,
         Call.composite ⟨ref.id, m⟩
          (if t < 80 ∧ t > 50 then BlendMode.BlendModeScreen else BlendMode.BlendModeOver)
          (env.getRealOffset bgInfo.Width bgInfo.Height x y g m).1
          (env.getRealOffset bgInfo.Width bgInfo.Height x y g m).2,
         Call.close ⟨ref.id, m⟩]) := by
  unfold composite
  simp only [normalizePath_eq, hload, hp, if_true, hresize]
  rfl

theorem composite_plain (env : Env) (args : CmdArgs) (bgInfo : ImageMetadata)
    (image : GoString) (p x y : Int) (g : GoString) (t : Int) (ref : ImageRef)
    (hload : env.LoadWithUrl (args.ObjectPrefix ++ normalizePath image) = Except.ok ref)
    (hp : ¬ p > 0) :
    composite env args bgInfo image p x y g t =
      (args.Img.Composite ref
          (if t < 80 ∧ t > 50 then BlendMode.BlendModeScreen else BlendMode.BlendModeOver)
          (env.getRealOffset bgInfo.Width bgInfo.Height x y g ref.meta).1
          (env.getRealOffset bgInfo.Width bgInfo.Height x y g ref.meta).2,
        [Call.loadWithUrl (args.ObjectPrefix ++ normalizePath image),
         Call.refMetadata ref,
         Call.composite ref
          (if t < 80 ∧ t > 50 then BlendMode.BlendModeScreen else BlendMode.BlendModeOver)
          (env.getRealOffset bgInfo.Width bgInfo.Height x y g ref.meta).1
          (env.getRealOffset bgInfo.Width bgInfo.Height x y g ref.meta).2,
         Call.close ref]) := by
  unfold composite
  simp only [normalizePath_eq, hload, hp, if_false]
  rfl

theorem assignParam_field_keep (env : Env) (v : Vars) (key val : GoString) (k : Key)
    (hkey : key ≠ k.name) : (assignParam env v key val).field k = v.field k := by
  cases hk : Key.ofName key with
  | none => rw [assignParam_unknown env v key val hk]
  | some k' =>
    have hname := Key.ofName_some key k' hk
    subst hname
    cases k' <;> cases k <;>
      first | exact absurd rfl hkey | simp [assignParam, Key.name, Vars.field]

theorem paramLoop_field_keep (env : Env) (k : Key) :
    ∀ (l : List GoString) (v v' : Vars),
      (∀ tok ∈ l, (Split tok '_').head? ≠ some k.name) →
      paramLoop env v l = Except.ok v' → v'.field k = v.field k := by
  intro l
  induction l with
  | nil => intro v v' _ h; simp only [paramLoop, Except.ok.injEq] at h; rw [h]
  | cons tok rest ih =>
    intro v v' hno h
    simp only [paramLoop] at h
    split at h
    · rename_i key val hs
      have hkey : key ≠ k.name := by
        have := hno tok (List.mem_cons_self _ _)
        rw [hs] at this
        simpa using this
      split at h
      · exact absurd h (by simp)
      · rw [ih _ _ (fun t ht => hno t (List.mem_cons_of_mem _ ht)) h]
        exact assignParam_field_keep env v key val k hkey
    · exact absurd h (by simp)

theorem composite_call_offsets (env : Env) (args : CmdArgs) (bgInfo : ImageMetadata)
    (image : GoString) (p x y : Int) (g : GoString) (t : Int)
    (ref : ImageRef) (mod : BlendMode) (cx cy : Int)
    (h : Call.composite ref mod cx cy ∈ (composite env args bgInfo image p x y g t).2) :
    (cx, cy) = env.getRealOffset bgInfo.Width bgInfo.Height x y g ref.meta := by
  unfold composite at h
  simp only at h
  split at h
  · simp at h
  · split at h
    · split at h
      · simp at h
      · simp at h
        obtain ⟨h1, _, h3, h4⟩ := h
        rw [h1, h3, h4]
    · simp at h
      obtain ⟨h1, _, h3, h4⟩ := h
      rw [h1, h3, h4]

theorem composite_filters (env : Env) (args : CmdArgs) (bgInfo : ImageMetadata)
    (image : GoString) (p x y : Int) (g : GoString) (t : Int) :
    (composite env args bgInfo image p x y g t).2.filter Call.isLoad =
      [Call.loadWithUrl (args.ObjectPrefix ++ normalizePath image)] ∧
    ∀ ref, env.LoadWithUrl (args.ObjectPrefix ++ normalizePath image) = Except.ok ref →
      (composite env args bgInfo image p x y g t).2.filter Call.isResize =
        (if p > 0 then [Call.resize ref p] else []) ∧
      ∀ e, p > 0 → env.Resize ref p = Except.error e →
        (composite env args bgInfo image p x y g t).1 = some e ∧
        (composite env args bgInfo image p x y g t).2.filter Call.isComposite = [] ∧
        (composite env args bgInfo image p x y g t).2.filter Call.isClose = [] := by
  cases hload : env.LoadWithUrl (args.ObjectPrefix ++ normalizePath image) with
  | error e =>
    rw [composite_load_error env args bgInfo image p x y g t e hload]
    exact ⟨rfl, fun ref h => absurd h (by simp)⟩
  | ok ref =>
    by_cases hp : p > 0
    · cases hres : env.Resize ref p with
      | error e =>
        rw [composite_resize_error env args bgInfo image p x y g t ref e hload hp hres]
        refine ⟨rfl, fun ref' h => ?_⟩
        simp only [Except.ok.injEq] at h
        subst h
        refine ⟨by simp [List.filter, Call.isResize, hp], fun e' _ he' => ?_⟩
        rw [hres] at he'
        simp only [Except.error.injEq] at he'
        subst he'
        exact ⟨rfl, rfl, rfl⟩
      | ok m =>
        rw [composite_resized env args bgInfo image p x y g t ref m hload hp hres]
        refine ⟨rfl, fun ref' h => ?_⟩
        simp only [Except.ok.injEq] at h
        subst h
        exact ⟨by simp [List.filter, Call.isResize, hp],
          fun e' _ he' => absurd (hres.symm.trans he') (by simp)⟩
    · rw [composite_plain env args bgInfo image p x y g t ref hload hp]
      refine ⟨rfl, fun ref' h => ?_⟩
      simp only [Except.ok.injEq] at h
      subst h
      exact ⟨by simp [List.filter, Call.isResize, hp], fun e' hp' _ => absurd hp' hp⟩

/-! ## Claims about the text style and the overlay -/

/-- C11, evaluated at the failing input: for the tokens `text_L3cucG5n` and
`type_Um9ib3Rv` the loop stores the font family "Roboto" in `fontType`, yet
the label passed to Label has the font "OPPOSans R"; indeed the result of
`label` does not depend on `fontType` at all. -/
theorem font_type_ignored :
    paramLoop sampleEnv {} (sampleArgs ["text_L3cucG5n", "type_Um9ib3Rv"]).Params =
      Except.ok { text := "/w.png".toList, fontType := "Roboto".toList } ∧
    (∃ lp, Process sampleEnv (sampleArgs ["text_L3cucG5n", "type_Um9ib3Rv"]) =
        ⟨none, none, [Call.imgMetadata, Call.label lp]⟩ ∧ lp.Font = "OPPOSans R".toList) ∧
    ∀ (env : Env) (args : CmdArgs) (bgInfo : ImageMetadata)
      (text fontType fontType' fontColor : GoString)
      (fontSize fontShadow fontRotate fill x y : Int) (g : GoString) (t : Int),
      label env args bgInfo text fontType fontColor fontSize fontShadow fontRotate fill x y g t =
        label env args bgInfo text fontType' fontColor fontSize fontShadow fontRotate fill
          x y g t := by
  have hloop : paramLoop sampleEnv {} (sampleArgs ["text_L3cucG5n", "type_Um9ib3Rv"]).Params =
      Except.ok { text := "/w.png".toList, fontType := "Roboto".toList } := by rfl
  refine ⟨hloop, ?_, fun _ _ _ _ _ _ _ _ _ _ _ _ _ _ _ => rfl⟩
  obtain ⟨lp, hlp, _, hfont, _⟩ :=
    label_rendered sampleEnv (sampleArgs ["text_L3cucG5n", "type_Um9ib3Rv"]) ⟨500, 500⟩
      "/w.png".toList "Roboto".toList [] 0 0 0 0
      (sampleEnv.ensureInRange 0 500 0) (sampleEnv.ensureInRange 0 500 0) "se".toList 100
      (Or.inl rfl)
  refine ⟨lp, ?_, hfont⟩
  rw [Process_text sampleEnv _ _ hloop (by decide) (by decide)]
  exact congrArg₂ (Outcome.mk none) (congrArg Prod.fst hlp) (congrArg (Call.imgMetadata :: ·.2) hlp)

/-- C12, evaluated at the failing input: when `Resize` fails after a
successful load, `Process` returns the error having called the loader and
`Resize` only, so the overlay handle is never closed; on the path where
`Resize` succeeds the handle is closed once. -/
theorem overlay_not_closed_on_resize_error :
    Process resizeFailsEnv (sampleArgs ["image_L3cucG5n", "P_50"]) =
      ⟨none, some (GoError.external 2),
        [Call.imgMetadata, Call.loadWithUrl "bucket/w.png".toList,
         Call.resize ⟨1, ⟨100, 40⟩⟩ 50]⟩ ∧
    (Process resizeFailsEnv (sampleArgs ["image_L3cucG5n", "P_50"])).calls.filter Call.isClose
      = [] ∧
    (Process sampleEnv (sampleArgs ["image_L3cucG5n", "P_50"])).calls.filter Call.isClose
      = [Call.close ⟨1, ⟨50, 20⟩⟩] := by
  refine ⟨by decide, by decide, by decide⟩

/-- C13: in the image branch the loader is called exactly once, with the
prefix followed by the normalized path: the path itself when it begins with
"/", else "/" and the path.  The normalized path always begins with "/", and
normalizing twice equals normalizing once. -/
theorem path_normalization (env : Env) (args : CmdArgs) (v : Vars)
    (hloop : paramLoop env {} args.Params = Except.ok v) (himage : v.image ≠ []) :
    (Process env args).calls.filter Call.isLoad =
      [Call.loadWithUrl (args.ObjectPrefix ++ normalizePath v.image)] ∧
    (v.image.head? = some '/' → normalizePath v.image = v.image) ∧
    (v.image.head? ≠ some '/' → normalizePath v.image = "/".toList ++ v.image) ∧
    (normalizePath v.image).head? = some '/' ∧
    normalizePath (normalizePath v.image) = normalizePath v.image := by
  refine ⟨?_, fun h => ?_, fun h => ?_, normalizePath_head _, ?_⟩
  · rw [Process_image env args v hloop himage]
    have h := (composite_filters env args args.Img.Metadata v.image v.p
      (env.ensureInRange 0 args.Img.Metadata.Width v.x)
      (env.ensureInRange 0 args.Img.Metadata.Height v.y) v.g v.t).1
    simp only [List.filter, Call.isLoad]
    exact h
  · simp only [normalizePath, h, if_true]
  · simp only [normalizePath, h, if_false]; rfl
  · have h := normalizePath_head v.image
    generalize normalizePath v.image = q at h
    simp only [normalizePath, h, if_true]

/-- Witness of C13: the decoded paths "w.png" and "/w.png" both reach the
loader as "bucket/w.png". -/
theorem path_normalization_witness :
    (Process sampleEnv (sampleArgs ["image_dy5wbmc="])).calls.filter Call.isLoad =
      [Call.loadWithUrl "bucket/w.png".toList] ∧
    (Process sampleEnv (sampleArgs ["image_L3cucG5n"])).calls.filter Call.isLoad =
      [Call.loadWithUrl "bucket/w.png".toList] :=
  ⟨(path_normalization sampleEnv (sampleArgs ["image_dy5wbmc="])
      { image := "w.png".toList } (by rfl) (by decide)).1,
    (path_normalization sampleEnv (sampleArgs ["image_L3cucG5n"])
      { image := "/w.png".toList } (by rfl) (by decide)).1⟩

/-- C14: the geometry resolver, as the specification describes it, returns
(bgW - ow, bgH - oh) for gravity "se" and (0, 0) for gravity "nw" when both raw
offsets are zero; and both branches take their coordinates from the resolver:
`composite` passes to Composite what it returns for the overlay's metadata,
`label` stores, converted to `float64`, what it returns for the label's box of
width `int(200)` and height `int(float64(fontSize) * 0.75)`. -/
theorem gravity_zero_offsets (bgW bgH ow oh : Int) :
    getRealOffset bgW bgH 0 0 "se".toList ⟨ow, oh⟩ = (bgW - ow, bgH - oh) ∧
    getRealOffset bgW bgH 0 0 "nw".toList ⟨ow, oh⟩ = (0, 0) ∧
    (∀ (env : Env) (args : CmdArgs) (bgInfo : ImageMetadata) (image : GoString)
        (p x y : Int) (g : GoString) (t : Int) (ref : ImageRef) (mod : BlendMode) (cx cy : Int),
        Call.composite ref mod cx cy ∈ (composite env args bgInfo image p x y g t).2 →
        (cx, cy) = env.getRealOffset bgInfo.Width bgInfo.Height x y g ref.meta) ∧
    (∀ (env : Env) (args : CmdArgs) (bgInfo : ImageMetadata)
        (text fontType fontColor : GoString) (fontSize fontShadow fontRotate fill x y : Int)
        (g : GoString) (t : Int) (lp : LabelParams),
        Call.label lp ∈ (label env args bgInfo text fontType fontColor fontSize fontShadow
          fontRotate fill x y g t).2 →
        (lp.OffsetX, lp.OffsetY) =
          (float64 ((env.getRealOffset bgInfo.Width bgInfo.Height x y g
              ⟨truncToInt 200,
                truncToInt (float64 (float64 (fontSize : ℚ) * (3 / 4)))⟩).1 : ℚ),
           float64 ((env.getRealOffset bgInfo.Width bgInfo.Height x y g
              ⟨truncToInt 200,
                truncToInt (float64 (float64 (fontSize : ℚ) * (3 / 4)))⟩).2 : ℚ))) := by
  refine ⟨?_, ?_, ?_, ?_⟩
  · have hne : ∀ s : String, s ≠ "se" → "se".toList ≠ s.toList := by
      intro s hs h
      exact hs (String.ext h.symm)
    simp only [getRealOffset, if_neg (hne "nw" (by decide)), if_neg (hne "n" (by decide)),
      if_neg (hne "ne" (by decide)), if_neg (hne "w" (by decide)),
      if_neg (hne "center" (by decide)), if_neg (hne "e" (by decide)),
      if_neg (hne "sw" (by decide)), if_neg (hne "s" (by decide)), sub_zero]
  · simp only [getRealOffset, if_true]
  · intro env args bgInfo image p x y g t ref mod cx cy h
    exact composite_call_offsets env args bgInfo image p x y g t ref mod cx cy h
  · intro env args bgInfo text fontType fontColor fontSize fontShadow fontRotate fill x y g t lp h
    by_cases hc : fontColor = [] ∨ (Hex2RGB fontColor).2 = none
    · obtain ⟨lp', hlp, _, _, _, _, _, _, _, hoff⟩ :=
        label_rendered env args bgInfo text fontType fontColor fontSize fontShadow fontRotate
          fill x y g t hc
      rw [hlp] at h
      simp only [List.mem_singleton, Call.label.injEq] at h
      rw [h]
      exact hoff
    · simp only [not_or] at hc
      cases he : (Hex2RGB fontColor).2 with
      | none => exact absurd he hc.2
      | some e =>
        rw [label_color_error env args bgInfo text fontType fontColor fontSize fontShadow
          fontRotate fill x y g t e hc.1 he] at h
        simp at h

/-- Witness of C14: on the 500 x 500 background the 100 x 40 overlay is
composited at (400, 460) for the default gravity, and the label of font size
20, whose box is 200 x 15, is placed at (300, 485) for the default gravity and
at (0, 0) for "nw". -/
theorem gravity_zero_offsets_witness :
    getRealOffset 500 500 0 0 "se".toList ⟨100, 40⟩ = (400, 460) ∧
    getRealOffset 500 500 0 0 "nw".toList ⟨100, 40⟩ = (0, 0) ∧
    Call.composite ⟨1, ⟨100, 40⟩⟩ BlendMode.BlendModeOver 400 460 ∈
      (composite sampleEnv (sampleArgs []) ⟨500, 500⟩ "w.png".toList 0 0 0 "se".toList 100).2 ∧
    ((400 : Int), (460 : Int)) = sampleEnv.getRealOffset 500 500 0 0 "se".toList ⟨100, 40⟩ ∧
    (∃ lp, Call.label lp ∈ (label sampleEnv (sampleArgs []) ⟨500, 500⟩ "/w.png".toList [] []
        20 0 0 0 0 0 "se".toList 100).2 ∧ (lp.OffsetX, lp.OffsetY) = (300, 485)) ∧
    (∃ lp, Call.label lp ∈ (label sampleEnv (sampleArgs []) ⟨500, 500⟩ "/w.png".toList [] []
        20 0 0 0 0 0 "nw".toList 100).2 ∧ (lp.OffsetX, lp.OffsetY) = (0, 0)) := by
  refine ⟨(gravity_zero_offsets 500 500 100 40).1, (gravity_zero_offsets 500 500 100 40).2.1,
    by decide,
    (gravity_zero_offsets 500 500 100 40).2.2.1 sampleEnv (sampleArgs []) ⟨500, 500⟩
      "w.png".toList 0 0 0 "se".toList 100 ⟨1, ⟨100, 40⟩⟩ BlendMode.BlendModeOver 400 460
      (by decide), ?_, ?_⟩
  · obtain ⟨lp, hlp, _⟩ := label_rendered sampleEnv (sampleArgs []) ⟨500, 500⟩
      "/w.png".toList [] [] 20 0 0 0 0 0 "se".toList 100 (Or.inl rfl)
    have hmem : Call.label lp ∈ (label sampleEnv (sampleArgs []) ⟨500, 500⟩ "/w.png".toList
        [] [] 20 0 0 0 0 0 "se".toList 100).2 := by
      rw [hlp]; exact List.mem_singleton_self _
    exact ⟨lp, hmem, ((gravity_zero_offsets 500 500 100 40).2.2.2 sampleEnv (sampleArgs [])
      ⟨500, 500⟩ "/w.png".toList [] [] 20 0 0 0 0 0 "se".toList 100 lp hmem).trans
      (by decide!)⟩
  · obtain ⟨lp, hlp, _⟩ := label_rendered sampleEnv (sampleArgs []) ⟨500, 500⟩
      "/w.png".toList [] [] 20 0 0 0 0 0 "nw".toList 100 (Or.inl rfl)
    have hmem : Call.label lp ∈ (label sampleEnv (sampleArgs []) ⟨500, 500⟩ "/w.png".toList
        [] [] 20 0 0 0 0 0 "nw".toList 100).2 := by
      rw [hlp]; exact List.mem_singleton_self _
    exact ⟨lp, hmem, ((gravity_zero_offsets 500 500 100 40).2.2.2 sampleEnv (sampleArgs [])
      ⟨500, 500⟩ "/w.png".toList [] [] 20 0 0 0 0 0 "nw".toList 100 lp hmem).trans
      (by decide!)⟩

/-- C15: with the clamp helper as the specification describes it, on a
background of width W and height H (both non-negative) `Process` hands to the
branch it runs the requested x clamped to [0, W] and the requested y clamped to
[0, H]: a negative value becomes 0, a value above the bound becomes the bound,
a value inside the range is unchanged.  The clamp reads the bounds and the
value only, neither the gravity nor the overlay's size. -/
theorem raw_offset_clamp (env : Env) (args : CmdArgs) (v : Vars)
    (hclamp : env.ensureInRange = ensureInRange)
    (hloop : paramLoop env {} args.Params = Except.ok v)
    (hW : 0 ≤ args.Img.Metadata.Width) (hH : 0 ≤ args.Img.Metadata.Height) :
    (v.image ≠ [] →
      Process env args =
        ⟨none,
          (composite env args args.Img.Metadata v.image v.p
            (ensureInRange 0 args.Img.Metadata.Width v.x)
            (ensureInRange 0 args.Img.Metadata.Height v.y) v.g v.t).1,
          Call.imgMetadata ::
            (composite env args args.Img.Metadata v.image v.p
              (ensureInRange 0 args.Img.Metadata.Width v.x)
              (ensureInRange 0 args.Img.Metadata.Height v.y) v.g v.t).2⟩) ∧
    (v.image = [] → v.text ≠ [] →
      Process env args =
        ⟨none,
          (label env args args.Img.Metadata v.text v.fontType v.fontColor v.fontSize
            v.fontShadow v.fontRotate v.fill
            (ensureInRange 0 args.Img.Metadata.Width v.x)
            (ensureInRange 0 args.Img.Metadata.Height v.y) v.g v.t).1,
          Call.imgMetadata ::
            (label env args args.Img.Metadata v.text v.fontType v.fontColor v.fontSize
              v.fontShadow v.fontRotate v.fill
              (ensureInRange 0 args.Img.Metadata.Width v.x)
              (ensureInRange 0 args.Img.Metadata.Height v.y) v.g v.t).2⟩) ∧
    ((v.x < 0 → ensureInRange 0 args.Img.Metadata.Width v.x = 0) ∧
      (args.Img.Metadata.Width < v.x →
        ensureInRange 0 args.Img.Metadata.Width v.x = args.Img.Metadata.Width) ∧
      (0 ≤ v.x → v.x ≤ args.Img.Metadata.Width →
        ensureInRange 0 args.Img.Metadata.Width v.x = v.x)) ∧
    ((v.y < 0 → ensureInRange 0 args.Img.Metadata.Height v.y = 0) ∧
      (args.Img.Metadata.Height < v.y →
        ensureInRange 0 args.Img.Metadata.Height v.y = args.Img.Metadata.Height) ∧
      (0 ≤ v.y → v.y ≤ args.Img.Metadata.Height →
        ensureInRange 0 args.Img.Metadata.Height v.y = v.y)) := by
  have hclampRange : ∀ hi w : Int, 0 ≤ hi →
      (w < 0 → ensureInRange 0 hi w = 0) ∧ (hi < w → ensureInRange 0 hi w = hi) ∧
      (0 ≤ w → w ≤ hi → ensureInRange 0 hi w = w) := by
    intro hi w hhi
    refine ⟨fun h => ?_, fun h => ?_, fun h1 h2 => ?_⟩
    · simp only [ensureInRange, h, if_true]
    · have h0 : ¬ w < 0 := by omega
      simp only [ensureInRange, h0, h, if_false, if_true]
    · have h0 : ¬ w < 0 := by omega
      have h3 : ¬ hi < w := by omega
      simp only [ensureInRange, h0, h3, if_false]
  refine ⟨fun h => ?_, fun h1 h2 => ?_, hclampRange _ _ hW, hclampRange _ _ hH⟩
  · rw [Process_image env args v hloop h, hclamp]
  · rw [Process_text env args v hloop h1 h2, hclamp]

/-- Witness of C15: on the 500 x 500 background the requested x = -5 becomes 0
and the requested y = 900 becomes 500. -/
theorem raw_offset_clamp_witness :
    ensureInRange 0 (sampleArgs ["x_-5", "y_900", "image_L3cucG5n"]).Img.Metadata.Width (-5) = 0 ∧
    ensureInRange 0 (sampleArgs ["x_-5", "y_900", "image_L3cucG5n"]).Img.Metadata.Height 900
      = 500 ∧
    Call.composite ⟨1, ⟨100, 40⟩⟩ BlendMode.BlendModeOver 400 (-40) ∈
      (Process sampleEnv (sampleArgs ["x_-5", "y_900", "image_L3cucG5n"])).calls :=
  ⟨(raw_offset_clamp sampleEnv (sampleArgs ["x_-5", "y_900", "image_L3cucG5n"])
      { x := -5, y := 900, image := "/w.png".toList } rfl (by rfl) (by decide)
      (by decide)).2.2.1.1 (by decide),
    (raw_offset_clamp sampleEnv (sampleArgs ["x_-5", "y_900", "image_L3cucG5n"])
      { x := -5, y := 900, image := "/w.png".toList } rfl (by rfl) (by decide)
      (by decide)).2.2.2.2.1 (by decide),
    by decide⟩

/-- C16: in the image branch, after a successful load, `Resize` is called
exactly once, for the factor `float64(p)/100`, when the accumulated scale
percent `p` is greater than 0, and is not called otherwise; `p` is 0 when no
token has key `P`.  When `Resize` returns an error, `Process` returns that
error and Composite is not called. -/
theorem overlay_resize (env : Env) (args : CmdArgs) (v : Vars) (ref : ImageRef)
    (hloop : paramLoop env {} args.Params = Except.ok v) (himage : v.image ≠ [])
    (hload : env.LoadWithUrl (args.ObjectPrefix ++ normalizePath v.image) = Except.ok ref) :
    (v.p > 0 → (Process env args).calls.filter Call.isResize = [Call.resize ref v.p]) ∧
    (v.p ≤ 0 → (Process env args).calls.filter Call.isResize = []) ∧
    ((∀ tok ∈ args.Params, (Split tok '_').head? ≠ some "P".toList) → v.p = 0) ∧
    (∀ e, v.p > 0 → env.Resize ref v.p = Except.error e →
      (Process env args).err = some e ∧
      (Process env args).calls.filter Call.isComposite = []) := by
  have hf := (composite_filters env args args.Img.Metadata v.image v.p
    (env.ensureInRange 0 args.Img.Metadata.Width v.x)
    (env.ensureInRange 0 args.Img.Metadata.Height v.y) v.g v.t).2 ref hload
  rw [Process_image env args v hloop himage]
  refine ⟨fun hp => ?_, fun hp => ?_, fun hno => ?_, fun e hp he => ?_⟩
  · simp only [List.filter, Call.isResize]
    rw [hf.1, if_pos hp]
  · simp only [List.filter, Call.isResize]
    rw [hf.1, if_neg (by omega)]
  · have h := paramLoop_field_keep env Key.P args.Params {} v hno hloop
    simp only [Vars.field, FieldValue.int.injEq] at h
    exact h
  · obtain ⟨h1, h2, _⟩ := hf.2 e hp he
    refine ⟨h1, ?_⟩
    simp only [List.filter, Call.isComposite]
    exact h2

/-- Witness of C16: with `P_50` the overlay is resized once, without a `P`
token it is not, and a failing `Resize` ends the request before Composite. -/
theorem overlay_resize_witness :
    (Process sampleEnv (sampleArgs ["image_L3cucG5n", "P_50"])).calls.filter Call.isResize =
      [Call.resize ⟨1, ⟨100, 40⟩⟩ 50] ∧
    (Process sampleEnv (sampleArgs ["image_L3cucG5n"])).calls.filter Call.isResize = [] ∧
    ((Process resizeFailsEnv (sampleArgs ["image_L3cucG5n", "P_50"])).err =
        some (GoError.external 2) ∧
      (Process resizeFailsEnv (sampleArgs ["image_L3cucG5n", "P_50"])).calls.filter
        Call.isComposite = []) :=
  ⟨(overlay_resize sampleEnv (sampleArgs ["image_L3cucG5n", "P_50"])
      { image := "/w.png".toList, p := 50 } ⟨1, ⟨100, 40⟩⟩ (by rfl) (by decide) rfl).1
        (by decide),
    (overlay_resize sampleEnv (sampleArgs ["image_L3cucG5n"])
      { image := "/w.png".toList } ⟨1, ⟨100, 40⟩⟩ (by rfl) (by decide) rfl).2.1 (by decide),
    (overlay_resize resizeFailsEnv (sampleArgs ["image_L3cucG5n", "P_50"])
      { image := "/w.png".toList, p := 50 } ⟨1, ⟨100, 40⟩⟩ (by rfl) (by decide) rfl).2.2.2
        (GoError.external 2) (by decide) rfl⟩

theorem Process_text_rendered (env : Env) (args : CmdArgs) (v : Vars)
    (hloop : paramLoop env {} args.Params = Except.ok v)
    (himage : v.image = []) (htext : v.text ≠ [])
    (hc : v.fontColor = [] ∨ (Hex2RGB v.fontColor).2 = none) :
    ∃ lp : LabelParams,
      Process env args = ⟨none, args.Img.Label lp, [Call.imgMetadata, Call.label lp]⟩ ∧
      lp.Font = "OPPOSans R".toList ∧
      lp.Color = (if v.fontColor = [] then ⟨0, 0, 0⟩ else (Hex2RGB v.fontColor).1) ∧
      lp.Opacity = (if v.t > 0 then float32 (float32 (v.t : ℚ) / 100) else 0) := by
  obtain ⟨lp, hlp, _, hfont, _, _, _, hcol, hop, _⟩ :=
    label_rendered env args args.Img.Metadata v.text v.fontType v.fontColor v.fontSize
      v.fontShadow v.fontRotate v.fill (env.ensureInRange 0 args.Img.Metadata.Width v.x)
      (env.ensureInRange 0 args.Img.Metadata.Height v.y) v.g v.t hc
  refine ⟨lp, ?_, hfont, hcol, hop⟩
  rw [Process_text env args v hloop himage htext, hlp]

/-- C17: in the text branch, a non-empty colour value that `Hex2RGB` rejects
makes `Process` return the error of `Hex2RGB` without calling Label.  An empty
colour value, which is what the loop leaves when no token has key `color`, is
not given to `Hex2RGB` (which would reject it): Label is called and the
label's colour keeps its zero value. -/
theorem invalid_color_aborts (env : Env) (args : CmdArgs) (v : Vars)
    (hloop : paramLoop env {} args.Params = Except.ok v)
    (himage : v.image = []) (htext : v.text ≠ []) :
    (∀ e, v.fontColor ≠ [] → (Hex2RGB v.fontColor).2 = some e →
      Process env args = ⟨none, some e, [Call.imgMetadata]⟩) ∧
    (v.fontColor = [] →
      (Hex2RGB v.fontColor).2 ≠ none ∧
      ∃ lp, Process env args = ⟨none, args.Img.Label lp, [Call.imgMetadata, Call.label lp]⟩ ∧
        lp.Color = ⟨0, 0, 0⟩) ∧
    ((∀ tok ∈ args.Params, (Split tok '_').head? ≠ some "color".toList) → v.fontColor = []) := by
  refine ⟨fun e hc he => ?_, fun hc => ⟨?_, ?_⟩, fun hno => ?_⟩
  · rw [Process_text env args v hloop himage htext,
      label_color_error env args _ _ _ _ _ _ _ _ _ _ _ _ e hc he]
  · rw [hc]; decide
  · obtain ⟨lp, hlp, _, _, _, _, _, hcol, _⟩ :=
      label_rendered env args args.Img.Metadata v.text v.fontType v.fontColor v.fontSize
        v.fontShadow v.fontRotate v.fill (env.ensureInRange 0 args.Img.Metadata.Width v.x)
        (env.ensureInRange 0 args.Img.Metadata.Height v.y) v.g v.t (Or.inl hc)
    refine ⟨lp, ?_, by rw [hcol, if_pos hc]⟩
    rw [Process_text env args v hloop himage htext, hlp]
  · have h := paramLoop_field_keep env Key.color args.Params {} v hno hloop
    simp only [Vars.field, FieldValue.str.injEq] at h
    exact h

/-- Witness of C17: the colour "zz0000" ends the request with the syntax error
of `ParseUint` after the metadata read alone, and without a colour the label
is rendered. -/
theorem invalid_color_aborts_witness :
    Process sampleEnv (sampleArgs ["text_L3cucG5n", "color_zz0000"]) =
      ⟨none, some (GoError.syntaxError "ParseUint" "zz0000".toList), [Call.imgMetadata]⟩ ∧
    ∃ lp, Process sampleEnv (sampleArgs ["text_L3cucG5n"]) =
        ⟨none, (sampleArgs ["text_L3cucG5n"]).Img.Label lp, [Call.imgMetadata, Call.label lp]⟩ ∧
      lp.Color = ⟨0, 0, 0⟩ :=
  ⟨(invalid_color_aborts sampleEnv (sampleArgs ["text_L3cucG5n", "color_zz0000"])
      { text := "/w.png".toList, fontColor := "zz0000".toList } (by rfl) (by decide)
      (by decide)).1 _ (by decide) (by decide),
    ((invalid_color_aborts sampleEnv (sampleArgs ["text_L3cucG5n"])
      { text := "/w.png".toList } (by rfl) (by decide) (by decide)).2.1 (by decide)).2⟩

/-- C18 fails as stated: with the token `t_60` the label passed to Label has
the opacity 5033165/8388608, the `float32` quotient of 60 by 100, and not
60/100. -/
theorem text_opacity_not_exact :
    ∃ lp, (Process sampleEnv (sampleArgs ["text_L3cucG5n", "t_60"])).calls =
        [Call.imgMetadata, Call.label lp] ∧
      lp.Opacity = 5033165 / 8388608 ∧ lp.Opacity ≠ 60 / 100 := by
  obtain ⟨lp, hp, _, _, hop⟩ := Process_text_rendered sampleEnv
    (sampleArgs ["text_L3cucG5n", "t_60"]) { text := "/w.png".toList, t := 60 }
    (by rfl) (by decide) (by decide) (Or.inl rfl)
  have hval : lp.Opacity = 5033165 / 8388608 := hop.trans (by decide!)
  refine ⟨lp, by rw [hp], hval, ?_⟩
  rw [hval]
  norm_num

/-- C18, amended: every label that `Process` passes to Label in the text
branch has, when the accumulated opacity percent `t` is greater than 0, the
opacity `float32(t)/100` as `float32` computes it (the `float32` nearest to the
quotient by 100 of the `float32` nearest to `t`), and the zero value when `t`
is 0 or negative; when no token has key `t` the opacity is exactly 1. -/
theorem text_opacity (env : Env) (args : CmdArgs) (v : Vars) (lp : LabelParams)
    (hloop : paramLoop env {} args.Params = Except.ok v)
    (himage : v.image = []) (htext : v.text ≠ [])
    (hcall : Call.label lp ∈ (Process env args).calls) :
    (v.t > 0 → lp.Opacity = float32 (float32 (v.t : ℚ) / 100)) ∧
    (v.t ≤ 0 → lp.Opacity = 0) ∧
    ((∀ tok ∈ args.Params, (Split tok '_').head? ≠ some "t".toList) → lp.Opacity = 1) := by
  have hop : lp.Opacity = (if v.t > 0 then float32 (float32 (v.t : ℚ) / 100) else 0) := by
    rw [Process_text env args v hloop himage htext] at hcall
    simp only [List.mem_cons, reduceCtorEq, false_or] at hcall
    by_cases hc : v.fontColor = [] ∨ (Hex2RGB v.fontColor).2 = none
    · obtain ⟨lp', hlp, _, _, _, _, _, _, hopac, _⟩ :=
        label_rendered env args args.Img.Metadata v.text v.fontType v.fontColor v.fontSize
          v.fontShadow v.fontRotate v.fill (env.ensureInRange 0 args.Img.Metadata.Width v.x)
          (env.ensureInRange 0 args.Img.Metadata.Height v.y) v.g v.t hc
      rw [hlp] at hcall
      simp only [List.mem_singleton, Call.label.injEq] at hcall
      rw [hcall]
      exact hopac
    · simp only [not_or] at hc
      cases he : (Hex2RGB v.fontColor).2 with
      | none => exact absurd he hc.2
      | some e =>
        rw [label_color_error env args _ _ _ _ _ _ _ _ _ _ _ _ e hc.1 he] at hcall
        simp at hcall
  refine ⟨fun ht => by rw [hop, if_pos ht], fun ht => by rw [hop, if_neg (by omega)],
    fun hno => ?_⟩
  have ht : v.t = 100 := paramLoop_t env _ {} v hno hloop
  rw [hop, ht]
  decide!

/-- Witness of C18 as amended: with `t_60` the label has the opacity
5033165/8388608, with `t_0` the zero value, and without a `t` token the
opacity 1. -/
theorem text_opacity_witness :
    (∃ lp, Call.label lp ∈ (Process sampleEnv (sampleArgs ["text_L3cucG5n", "t_60"])).calls ∧
      lp.Opacity = 5033165 / 8388608) ∧
    (∃ lp, Call.label lp ∈ (Process sampleEnv (sampleArgs ["text_L3cucG5n", "t_0"])).calls ∧
      lp.Opacity = 0) ∧
    (∃ lp, Call.label lp ∈ (Process sampleEnv (sampleArgs ["text_L3cucG5n"])).calls ∧
      lp.Opacity = 1) := by
  refine ⟨?_, ?_, ?_⟩
  · obtain ⟨lp, hp, _⟩ := Process_text_rendered sampleEnv
      (sampleArgs ["text_L3cucG5n", "t_60"]) { text := "/w.png".toList, t := 60 }
      (by rfl) (by decide) (by decide) (Or.inl rfl)
    have hmem : Call.label lp ∈
        (Process sampleEnv (sampleArgs ["text_L3cucG5n", "t_60"])).calls := by
      rw [hp]; simp
    exact ⟨lp, hmem, ((text_opacity sampleEnv _ { text := "/w.png".toList, t := 60 } lp
      (by rfl) (by decide) (by decide) hmem).1 (by decide)).trans (by decide!)⟩
  · obtain ⟨lp, hp, _⟩ := Process_text_rendered sampleEnv
      (sampleArgs ["text_L3cucG5n", "t_0"]) { text := "/w.png".toList, t := 0 }
      (by rfl) (by decide) (by decide) (Or.inl rfl)
    have hmem : Call.label lp ∈
        (Process sampleEnv (sampleArgs ["text_L3cucG5n", "t_0"])).calls := by
      rw [hp]; simp
    exact ⟨lp, hmem, (text_opacity sampleEnv _ { text := "/w.png".toList, t := 0 } lp
      (by rfl) (by decide) (by decide) hmem).2.1 (by decide)⟩
  · obtain ⟨lp, hp, _⟩ := Process_text_rendered sampleEnv
      (sampleArgs ["text_L3cucG5n"]) { text := "/w.png".toList }
      (by rfl) (by decide) (by decide) (Or.inl rfl)
    have hmem : Call.label lp ∈ (Process sampleEnv (sampleArgs ["text_L3cucG5n"])).calls := by
      rw [hp]; simp
    exact ⟨lp, hmem, (text_opacity sampleEnv _ { text := "/w.png".toList } lp
      (by rfl) (by decide) (by decide) hmem).2.2 (by decide)⟩

/-! ## Parameters that are parsed and never read -/

theorem Split_of_not_mem (sep : Char) :
    ∀ s : GoString, sep ∉ s → Split s sep = [s] := by
  intro s
  induction s with
  | nil => intro _; rfl
  | cons c cs ih =>
    intro h
    simp only [List.mem_cons, not_or] at h
    rw [Split, if_neg (fun e => h.1 e.symm), ih h.2]

theorem isDecimalInteger_no_underscore (s : GoString) (h : isDecimalInteger s = true) :
    '_' ∉ s := by
  have hdig : ∀ r : List Char, r.all isDigit = true → '_' ∉ r := by
    intro r hr hmem
    have := List.all_eq_true.mp hr '_' hmem
    exact absurd this (by decide)
  cases s with
  | nil => simp
  | cons c r =>
    by_cases hc : c = '-' ∨ c = '+'
    · simp only [isDecimalInteger, if_pos hc, Bool.and_eq_true] at h
      simp only [List.mem_cons, not_or]
      refine ⟨?_, hdig r h.2⟩
      rcases hc with hc | hc <;> rw [hc] <;> decide
    · simp only [isDecimalInteger, if_neg hc] at h
      exact hdig _ h

theorem Atoi_ok_no_underscore (s : GoString) (h : (Atoi s).2 = none) : '_' ∉ s := by
  apply isDecimalInteger_no_underscore
  cases hd : isDecimalInteger s with
  | true => rfl
  | false => exact absurd h (Atoi_err_of_not_decimal s hd)

theorem unusedKeys_numeric (key : GoString) (h : key ∈ unusedKeys) : key ∈ numericKeys := by
  simp only [unusedKeys, List.mem_cons, List.mem_singleton, List.not_mem_nil, or_false] at h
  rcases h with rfl | rfl | rfl <;> decide

theorem Split_unused (key val : GoString) (hkey : key ∈ unusedKeys)
    (hval : (Atoi val).2 = none) : Split (key ++ '_' :: val) '_' = [key, val] := by
  have hsep : '_' ∉ key := by
    simp only [unusedKeys, List.mem_cons, List.mem_singleton, List.not_mem_nil, or_false] at hkey
    rcases hkey with rfl | rfl | rfl <;> decide
  rw [Split_append_sep '_' val key hsep, Split_of_not_mem '_' val (Atoi_ok_no_underscore val hval)]

theorem assignParam_rendered (env : Env) (v v' : Vars) (key val : GoString)
    (h : v.rendered = v'.rendered) :
    (assignParam env v key val).rendered = (assignParam env v' key val).rendered := by
  cases hk : Key.ofName key with
  | none => rw [assignParam_unknown env v key val hk, assignParam_unknown env v' key val hk, h]
  | some k =>
    have hname := Key.ofName_some key k hk
    subst hname
    obtain ⟨x, y, g, t, image, p, text, fontType, fontColor, fontSize, sh, ro, fi, err⟩ := v
    obtain ⟨x', y', g', t', image', p', text', fontType', fontColor', fontSize', sh', ro', fi',
      err'⟩ := v'
    simp only [Vars.rendered, Vars.mk.injEq, true_and, and_true] at h
    obtain ⟨rfl, rfl, rfl, rfl, rfl, rfl, rfl, rfl, rfl, rfl, rfl⟩ := h
    cases k <;> simp [assignParam, Key.name, Vars.rendered]

theorem assignParam_unused (env : Env) (v : Vars) (key val : GoString)
    (hkey : key ∈ unusedKeys) (hval : (Atoi val).2 = none) (herr : v.err = none) :
    (assignParam env v key val).rendered = v.rendered := by
  obtain ⟨x, y, g, t, image, p, text, fontType, fontColor, fontSize, sh, ro, fi, err⟩ := v
  simp only at herr
  subst herr
  simp only [unusedKeys, List.mem_cons, List.mem_singleton, List.not_mem_nil, or_false] at hkey
  rcases hkey with rfl | rfl | rfl <;> simp [assignParam, Vars.rendered, hval]

theorem rendered_err (v v' : Vars) (h : v.rendered = v'.rendered) : v.err = v'.err := by
  have := congrArg Vars.err h
  simpa [Vars.rendered] using this

theorem paramLoop_agree (env : Env) (l l' : List GoString)
    (h : List.Forall₂ SameButUnused l l') :
    ∀ v v' : Vars, v.err = none → v.rendered = v'.rendered →
      LoopsAgree (paramLoop env v l) (paramLoop env v' l') := by
  induction h with
  | nil => intro v v' _ hr; exact hr
  | @cons tok tok' rest rest' hrel _ ih =>
    intro v v' herr hr
    have herr' : v'.err = none := by rw [← rendered_err v v' hr]; exact herr
    rcases hrel with rfl | ⟨key, hkey, val, val', rfl, rfl, hval, hval'⟩
    · simp only [paramLoop]
      split
      · rename_i key val hs
        have ha := assignParam_rendered env v v' key val hr
        have he := rendered_err _ _ ha
        cases hv : (assignParam env v key val).err with
        | some e =>
          rw [hv] at he
          simp only [← he]
          rfl
        | none =>
          rw [hv] at he
          simp only [← he]
          exact ih _ _ hv ha
      · exact rfl
    · have ha : (assignParam env v key val).rendered = (assignParam env v' key val').rendered := by
        rw [assignParam_unused env v key val hkey hval herr,
          assignParam_unused env v' key val' hkey hval' herr', hr]
      have he1 : (assignParam env v key val).err = none := by
        rw [rendered_err _ _ (assignParam_unused env v key val hkey hval herr)]; exact herr
      have he2 : (assignParam env v' key val').err = none := by
        rw [← rendered_err _ _ ha]; exact he1
      simp only [paramLoop, Split_unused key val hkey hval, Split_unused key val' hkey hval',
        he1, he2]
      exact ih _ _ he1 ha

theorem Process_agree (env : Env) (pre : GoString) (img : Image) (l l' : List GoString)
    (h : LoopsAgree (paramLoop env {} l) (paramLoop env {} l')) :
    Process env ⟨l, pre, img⟩ = Process env ⟨l', pre, img⟩ := by
  cases h1 : paramLoop env {} l with
  | error e =>
    cases h2 : paramLoop env {} l' with
    | error e' =>
      rw [h1, h2] at h
      have he : e = e' := h
      subst he
      rw [Process_of_loop_error env ⟨l, pre, img⟩ e h1,
        Process_of_loop_error env ⟨l', pre, img⟩ e h2]
    | ok w' => rw [h1, h2] at h; exact absurd h (by simp [LoopsAgree])
  | ok w =>
    cases h2 : paramLoop env {} l' with
    | error e' => rw [h1, h2] at h; exact absurd h (by simp [LoopsAgree])
    | ok w' =>
      rw [h1, h2] at h
      have hr : w.rendered = w'.rendered := h
      obtain ⟨x, y, g, t, image, p, text, fontType, fontColor, fontSize, sh, ro, fi, err⟩ := w
      obtain ⟨x', y', g', t', image', p', text', fontType', fontColor', fontSize', sh', ro',
        fi', err'⟩ := w'
      simp only [Vars.rendered, Vars.mk.injEq, true_and, and_true] at hr
      obtain ⟨rfl, rfl, rfl, rfl, rfl, rfl, rfl, rfl, rfl, rfl, rfl⟩ := hr
      simp only [Process, h1, h2]
      rfl

/-- C19 fails as stated: "1" and "99999999999999999999" are both decimal
integers, yet the request with `fill_1` renders the overlay while the request
with `fill_99999999999999999999` ends in the range error of `Atoi` without any
call. -/
theorem unused_params_range_counterexample :
    isDecimalInteger "1".toList = true ∧
    isDecimalInteger "99999999999999999999".toList = true ∧
    Process sampleEnv ⟨["image_L3cucG5n".toList, "fill_1".toList], "bucket".toList,
        sampleImg⟩ =
      ⟨none, none,
        [Call.imgMetadata, Call.loadWithUrl "bucket/w.png".toList,
         Call.refMetadata ⟨1, ⟨100, 40⟩⟩,
         Call.composite ⟨1, ⟨100, 40⟩⟩ BlendMode.BlendModeOver 400 460,
         Call.close ⟨1, ⟨100, 40⟩⟩]⟩ ∧
    Process sampleEnv ⟨["image_L3cucG5n".toList, "fill_99999999999999999999".toList],
        "bucket".toList, sampleImg⟩ =
      ⟨none, some (GoError.rangeError "Atoi" "99999999999999999999".toList), []⟩ := by
  refine ⟨by decide, by decide, by decide, by decide!⟩

/-- C19, amended: two token lists that differ only in the values of their
shadow, rotate and fill tokens, all of them values that `strconv.Atoi`
accepts, give the same outcome of `Process`: the same results and the same
collaborator calls with the same arguments, whichever branch runs.  A value
for one of these keys that `Atoi` rejects, which every value that is not a
decimal integer is, ends the request with an error and no call. -/
theorem unused_params_no_effect (env : Env) (pre : GoString) (img : Image)
    (l l' : List GoString) (h : List.Forall₂ SameButUnused l l') :
    Process env ⟨l, pre, img⟩ = Process env ⟨l', pre, img⟩ ∧
    ∀ key ∈ unusedKeys, ∀ val : GoString,
      (isDecimalInteger val = false ∨ (Atoi val).2 ≠ none) →
      key ++ '_' :: val ∈ l →
      (Process env ⟨l, pre, img⟩).err ≠ none ∧ (Process env ⟨l, pre, img⟩).calls = [] := by
  refine ⟨Process_agree env pre img l l' (paramLoop_agree env l l' h {} {} rfl rfl), ?_⟩
  intro key hkey val hval hmem
  have hrej : (Atoi val).2 ≠ none := by
    rcases hval with hval | hval
    · exact Atoi_err_of_not_decimal val hval
    · exact hval
  obtain ⟨e, he⟩ := paramLoop_aborts env _
    (aborts_of_atoi_error env key val (unusedKeys_numeric key hkey) hrej) l hmem {}
  rw [Process_of_loop_error env ⟨l, pre, img⟩ e he]
  simp

/-- Witness of C19 as amended: a text request and an image request, each with
two settings of shadow, rotate and fill; the token `rotate_left`; and the
token `fill_99999999999999999999`. -/
theorem unused_params_no_effect_witness :
    Process sampleEnv ⟨["text_L3cucG5n".toList, "shadow_1".toList, "rotate_90".toList,
        "fill_1".toList], "bucket".toList, sampleImg⟩ =
      Process sampleEnv ⟨["text_L3cucG5n".toList, "shadow_7".toList, "rotate_-45".toList,
        "fill_0".toList], "bucket".toList, sampleImg⟩ ∧
    Process sampleEnv ⟨["image_L3cucG5n".toList, "fill_1".toList], "bucket".toList, sampleImg⟩ =
      Process sampleEnv ⟨["image_L3cucG5n".toList, "fill_250".toList], "bucket".toList,
        sampleImg⟩ ∧
    ((Process sampleEnv ⟨["text_L3cucG5n".toList, "rotate_left".toList], "bucket".toList,
        sampleImg⟩).err ≠ none ∧
      (Process sampleEnv ⟨["text_L3cucG5n".toList, "rotate_left".toList], "bucket".toList,
        sampleImg⟩).calls = []) ∧
    ((Process sampleEnv ⟨["text_L3cucG5n".toList, "fill_99999999999999999999".toList],
        "bucket".toList, sampleImg⟩).err ≠ none ∧
      (Process sampleEnv ⟨["text_L3cucG5n".toList, "fill_99999999999999999999".toList],
        "bucket".toList, sampleImg⟩).calls = []) :=
  ⟨(unused_params_no_effect sampleEnv "bucket".toList sampleImg _ _
      (List.Forall₂.cons (Or.inl rfl)
        (List.Forall₂.cons
          (Or.inr ⟨"shadow".toList, by decide, "1".toList, "7".toList, rfl, rfl,
            by decide, by decide⟩)
          (List.Forall₂.cons
            (Or.inr ⟨"rotate".toList, by decide, "90".toList, "-45".toList, rfl, rfl,
              by decide, by decide⟩)
            (List.Forall₂.cons
              (Or.inr ⟨"fill".toList, by decide, "1".toList, "0".toList, rfl, rfl,
                by decide, by decide⟩)
              List.Forall₂.nil))))).1,
    (unused_params_no_effect sampleEnv "bucket".toList sampleImg _ _
      (List.Forall₂.cons (Or.inl rfl)
        (List.Forall₂.cons
          (Or.inr ⟨"fill".toList, by decide, "1".toList, "250".toList, rfl, rfl,
            by decide, by decide⟩)
          List.Forall₂.nil))).1,
    (unused_params_no_effect sampleEnv "bucket".toList sampleImg
      ["text_L3cucG5n".toList, "rotate_left".toList]
      ["text_L3cucG5n".toList, "rotate_left".toList]
      (List.Forall₂.cons (Or.inl rfl) (List.Forall₂.cons (Or.inl rfl) List.Forall₂.nil))).2
      "rotate".toList (by decide) "left".toList (Or.inl (by decide)) (by decide),
    (unused_params_no_effect sampleEnv "bucket".toList sampleImg
      ["text_L3cucG5n".toList, "fill_99999999999999999999".toList]
      ["text_L3cucG5n".toList, "fill_99999999999999999999".toList]
      (List.Forall₂.cons (Or.inl rfl) (List.Forall₂.cons (Or.inl rfl) List.Forall₂.nil))).2
      "fill".toList (by decide) "99999999999999999999".toList (Or.inr (by decide!))
      (by decide)⟩

end Processor
